import Mathlib

/-!
# Capture loops of the RealSense dynamic-calibration front-ends

A shallow embedding of the `while (true)` capture loops of `main.c` and
`main.cpp`.  Every call that leaves the program (camera API, calibration
engine, `memcpy` into one of the process-lifetime buffers, process exit) is
recorded as an `Event`; one run of a loop is a function from the answers the
camera and the engine give (one `Capture` per iteration) to the list of events
and the exit status.

Conventions of the embedding:

* pixel data is abstract: the bytes a frame carries are a `Nat` identifier, and
  a buffer holds the identifier of the last data copied into it (`0` for the
  zero bytes written by the initial `memset`);
* frame handles (`rs2_frame*`) are `Nat`; a pointer that may be `NULL` is an
  `Option Nat`;
* `rs2_error* e` is the Boolean "`e` is not `NULL`";
* the `float` variables `d_width`, `d_height`, `c_width`, `c_height` of
  `main.cpp` only ever hold frame dimensions, which are integers far below
  `2^24`, so they are embedded as `Int`;
* a finite list of captures is a finite prefix of a run: when the list is
  exhausted the loop is blocked in the next wait and `exit` is `none`.
-/

namespace RsCalibration

/-- Result codes of the calibration engine that the sources name in their
`switch` statements; any other integer the engine may return is `other n`. -/
inductive DCCode where
  | DC_SUCCESS
  | DC_ERROR_FAIL
  | DC_ERROR_INVALID_PARAMETER
  | DC_ERROR_RESOLUTION_NOT_SUPPORTED_V2
  | DC_ERROR_TABLE_NOT_SUPPORTED
  | DC_ERROR_TABLE_NOT_VALID_RESOLUTION
  | DC_ERROR_RECT_INVALID_IMAGES
  | DC_ERROR_RECT_INVALID_GRID_FILL
  | DC_ERROR_RECT_TOO_SIMILAR
  | DC_ERROR_RECT_TOO_MUCH_FEATURES
  | DC_ERROR_RECT_NO_FEATURES
  | DC_ERROR_RECT_GRID_FULL
  | DC_ERROR_UNKNOWN
  | other (n : Int)
  deriving DecidableEq, Repr

/-- The process-lifetime image buffers (`depthbuf`, `ir_img_left` / `irbuf_l`,
`ir_img_right` / `irbuf_r`, and `colorbuf` of `main.cpp`). -/
inductive Buffer where
  | depth
  | irLeft
  | irRight
  | color
  deriving DecidableEq, Repr

/-- Observable actions of a front-end, in program order. -/
inductive Event where
  /-- Call of `rs2_pipeline_wait_for_frames` / `pipeline.wait_for_frames`. -/
  | waitForFrames
  /-- Call of `rs2_extract_frame` that returned the handle `h` (main.c). -/
  | extractFrame (h : Nat)
  /-- Call `memcpy(dst, src, ...)`: pixel data `src` is copied into buffer `dst`. -/
  | memcpy (dst : Buffer) (src : Nat)
  /-- Call of `dyncal.IsGridFull()` that answered `full`. -/
  | isGridFull (full : Bool)
  /-- Call `dyncal.AddImages(left, right, depth, ts)` with the buffers holding
  `left`, `right`, `depth`, which returned `ret`. -/
  | addImages (left right depth : Nat) (ts : Int) (ret : DCCode)
  /-- Call of `dyncal.UpdateCalibrationTables()` that returned `ret`. -/
  | updateCalibrationTables (ret : DCCode)
  /-- Call `rs2_release_frame(h)` (main.c). -/
  | releaseFrame (h : Nat)
  /-- Call `clean_exit(code, &rs_state)` (main.c). -/
  | cleanExit (code : Int)
  /-- Call `stop(pipeline)` (main.cpp). -/
  | stop
  deriving DecidableEq, Repr

/-- Calls into the calibration engine. -/
def Event.isEngine : Event → Bool
  | .isGridFull _ => true
  | .addImages _ _ _ _ _ => true
  | .updateCalibrationTables _ => true
  | _ => false

/-- The event is a call of `AddImages`. -/
def Event.isAddImages : Event → Bool
  | .addImages _ _ _ _ _ => true
  | _ => false

/-- The event is a call of `UpdateCalibrationTables`. -/
def Event.isUpdate : Event → Bool
  | .updateCalibrationTables _ => true
  | _ => false

/-- The event is a wait for the next capture. -/
def Event.isWait : Event → Bool
  | .waitForFrames => true
  | _ => false

/-- The event is a `memcpy` into one of the image buffers. -/
def Event.isMemcpy : Event → Bool
  | .memcpy _ _ => true
  | _ => false

/-- The event is a `memcpy` into one of the two infrared buffers. -/
def Event.isIrCopy : Event → Bool
  | .memcpy .irLeft _ => true
  | .memcpy .irRight _ => true
  | _ => false

/-- The trigger event "`IsGridFull` answered true". -/
def Event.isFull (ev : Event) : Bool := decide (ev = Event.isGridFull true)

/-- Calls that must not follow a commit: a wait, `AddImages`, another commit. -/
def Event.isLoopCall (ev : Event) : Bool := ev.isWait || ev.isAddImages || ev.isUpdate

/-- What a block of code did: the events it emitted, the variables it leaves
behind, and `ret = some code` when it executed `return code`. -/
structure Step (σ : Type) where
  events : List Event
  state : σ
  ret : Option Int
  deriving Repr

/-- A finite prefix of a run of a capture loop: `exit = some code` when `main`
returned `code`, `none` when the loop is blocked waiting for a capture that the
input does not contain. -/
structure Run where
  events : List Event
  exit : Option Int
  deriving DecidableEq, Repr

/-- The loop `while (true) { body }` run on the given inputs, one per iteration:
it stops at the first iteration whose body returns from `main`. -/
def runLoop {σ ι : Type} (body : σ → ι → Step σ) : σ → List ι → Run
  | _, [] => ⟨[], none⟩
  | st, inp :: rest =>
    match (body st inp).ret with
    | some code => ⟨(body st inp).events, some code⟩
    | none =>
      ⟨(body st inp).events ++ (runLoop body (body st inp).state rest).events,
        (runLoop body (body st inp).state rest).exit⟩

/-! ## main.c -/

namespace MainC

/-- The constant `cDepthW` (main.c, line 21). -/
def cDepthW : Int := 1280
/-- The constant `cDepthH` (main.c, line 22). -/
def cDepthH : Int := 720
/-- The constant `cColorW` (main.c, line 23). -/
def cColorW : Int := 1920
/-- The constant `cColorH` (main.c, line 24). -/
def cColorH : Int := 1080

/-- The class `ReleaseLater` (main.c, lines 29-44). -/
structure ReleaseLater where
  to_release : List Nat
  frames : Option Nat
  deriving DecidableEq, Repr

/-- Handles passed to `rs2_release_frame` by the destructor `~ReleaseLater`, in
call order: every member of `to_release`, then `frames` unless it is `NULL`. -/
def ReleaseLater.released (r : ReleaseLater) : List Nat :=
  r.to_release ++ (match r.frames with
    | some h => [h]
    | none => [])

/-- The destructor `~ReleaseLater` as events. -/
def ReleaseLater.destroy (r : ReleaseLater) : List Event :=
  r.released.map Event.releaseFrame

/-- The function `check_error` (main.c, lines 68-78): 1 when `e` is set, else 0. -/
def check_error (e : Bool) : Int := if e then 1 else 0

/-- Answers of the camera API about one embedded frame of a capture.  A field
`...Err` says that the call raised an error (wrote to `&e`). -/
structure Frame where
  /-- Return value of `rs2_extract_frame`. -/
  handle : Nat
  extractErr : Bool
  /-- Value of `rs2_is_frame_extendable_to(fr, RS2_EXTENSION_DEPTH_FRAME, &e) == 1`. -/
  isDepth : Bool
  isDepthErr : Bool
  /-- Value of `rs2_is_frame_extendable_to(fr, RS2_EXTENSION_VIDEO_FRAME, &e) == 1`. -/
  isVideo : Bool
  isVideoErr : Bool
  /-- Width of the frame; main.c never asks for it. -/
  width : Int
  /-- Return value of `rs2_get_frame_height`. -/
  height : Int
  heightErr : Bool
  /-- Pixel data behind `rs2_get_frame_data`. -/
  data : Nat
  dataErr : Bool
  deriving DecidableEq, Repr

/-- Everything the environment answers during one loop iteration. -/
structure Capture where
  /-- Return value of `rs2_pipeline_wait_for_frames`. -/
  handle : Nat
  waitErr : Bool
  /-- The call `rs2_embedded_frames_count` raised an error. -/
  countErr : Bool
  /-- The embedded frames; `num_frames` is the length of this list. -/
  frames : List Frame
  /-- Reading of `system_clock`, in whole milliseconds since the epoch. -/
  clock : Int
  /-- Answer of `IsGridFull` in this iteration. -/
  gridFull : Bool
  /-- Return value of `AddImages` in this iteration. -/
  addRet : DCCode
  /-- Return value of `UpdateCalibrationTables` in this iteration. -/
  updateRet : DCCode
  deriving DecidableEq, Repr

/-- Variables of main.c that outlive a loop iteration. -/
structure State where
  /-- The error pointer `e` is not `NULL`. -/
  e : Bool
  depthbuf : Nat
  ir_img_left : Nat
  ir_img_right : Nat
  deriving DecidableEq, Repr

/-- Variables of one loop iteration while the frames are scanned. -/
structure Scan where
  e : Bool
  depthbuf : Nat
  ir_img_left : Nat
  ir_img_right : Nat
  got_ir_frames : Nat
  releaseLater : ReleaseLater
  deriving DecidableEq, Repr

/-- State at loop entry: `e` is `NULL` (every earlier call was checked) and the
buffers were zeroed by `memset`. -/
def State.init : State := ⟨false, 0, 0, 0⟩

/-- The statement `return clean_exit(code, &rs_state)` inside the loop body: `clean_exit`
runs, then the destructor of `releaseLater`. -/
def returnCleanExit (code : Int) (pre : List Event) (s : Scan) : Step Scan :=
  ⟨pre ++ Event.cleanExit code :: s.releaseLater.destroy, s, some code⟩

/-- Body of `for (int f = 0; f < num_frames; f++)` (main.c, lines 345-393). -/
def frameBody (f : Nat) (s : Scan) (fr : Frame) : Step Scan :=
  -- rs2_frame* fr = rs2_extract_frame(frames, f, &e);
  let s := { s with e := s.e || fr.extractErr }
  if check_error s.e ≠ 0 then
    returnCleanExit 1 [Event.extractFrame fr.handle] s
  else
    -- releaseLater.to_release.push_back(fr);
    let s := { s with releaseLater :=
      { s.releaseLater with to_release := s.releaseLater.to_release ++ [fr.handle] } }
    -- rs2_is_frame_extendable_to(fr, RS2_EXTENSION_DEPTH_FRAME, &e) == 1
    let s := { s with e := s.e || fr.isDepthErr }
    if fr.isDepth then
      -- releaseLater.to_release.push_back(fr);
      let s := { s with releaseLater :=
        { s.releaseLater with to_release := s.releaseLater.to_release ++ [fr.handle] } }
      if check_error s.e ≠ 0 then
        returnCleanExit 1 [Event.extractFrame fr.handle] s
      else
        -- uint16_t* dbuf = (uint16_t*)(rs2_get_frame_data(fr, &e));
        let s := { s with e := s.e || fr.dataErr }
        if check_error s.e ≠ 0 then
          returnCleanExit 1 [Event.extractFrame fr.handle] s
        else
          -- memcpy(depthbuf, dbuf, cDepthW*cDepthH*sizeof(uint16_t));
          ⟨[Event.extractFrame fr.handle, Event.memcpy Buffer.depth fr.data],
            { s with depthbuf := fr.data }, none⟩
    else
      -- rs2_is_frame_extendable_to(fr, RS2_EXTENSION_VIDEO_FRAME, &e) == 1
      let s := { s with e := s.e || fr.isVideoErr }
      if fr.isVideo then
        -- int fheight = rs2_get_frame_height(fr, &e);
        let s := { s with e := s.e || fr.heightErr }
        if check_error s.e ≠ 0 then
          returnCleanExit 1 [Event.extractFrame fr.handle] s
        else if fr.height = cDepthH then
          -- uint8_t* data = (uint8_t*)rs2_get_frame_data(fr, &e);
          let s := { s with e := s.e || fr.dataErr }
          if f = 2 then
            ⟨[Event.extractFrame fr.handle, Event.memcpy Buffer.irLeft fr.data],
              { s with ir_img_left := fr.data, got_ir_frames := s.got_ir_frames + 1 }, none⟩
          else
            ⟨[Event.extractFrame fr.handle, Event.memcpy Buffer.irRight fr.data],
              { s with ir_img_right := fr.data, got_ir_frames := s.got_ir_frames + 1 }, none⟩
        else
          -- color not used in this example
          ⟨[Event.extractFrame fr.handle], s, none⟩
      else
        ⟨[Event.extractFrame fr.handle], s, none⟩

/-- The loop `for (int f = 0; f < num_frames; f++)` from index `f` on. -/
def frameLoop : Nat → Scan → List Frame → Step Scan
  | _, s, [] => ⟨[], s, none⟩
  | f, s, fr :: rest =>
    let r := frameBody f s fr
    match r.ret with
    | some code => ⟨r.events, r.state, some code⟩
    | none =>
      let r2 := frameLoop (f + 1) r.state rest
      ⟨r.events ++ r2.events, r2.state, r2.ret⟩

/-- The variables the scan leaves for the next iteration. -/
def Scan.toState (s : Scan) : State :=
  ⟨s.e, s.depthbuf, s.ir_img_left, s.ir_img_right⟩

/-- Variables at the start of the frame loop: `releaseLater.frames` was
assigned from the local `frames` while that was still `NULL` (lines 327-329),
so it does not hold the capture handle returned by the later wait. -/
def Scan.start (st : State) (e : Bool) : Scan :=
  let frames : Option Nat := none
  ⟨e, st.depthbuf, st.ir_img_left, st.ir_img_right, 0, ⟨[], frames⟩⟩

/-- The rest of the loop body once the frame loop has run to its end (main.c,
lines 395-443), followed by the destructor of `releaseLater` at the end of the
iteration's scope. -/
def feedOrCommit (cap : Capture) (s : Scan) : Step State :=
  if s.got_ir_frames = 2 then
    let timestamp_us : Int := cap.clock
    if !cap.gridFull then
      -- dyncal.AddImages(ir_img_left, ir_img_right, depthbuf, timestamp_us/1000);
      ⟨[Event.isGridFull false,
          Event.addImages s.ir_img_left s.ir_img_right s.depthbuf
            (Int.tdiv timestamp_us 1000) cap.addRet] ++ s.releaseLater.destroy,
        s.toState, none⟩
    else
      -- dyncal.UpdateCalibrationTables(); return clean_exit(0, &rs_state);
      ⟨[Event.isGridFull true, Event.updateCalibrationTables cap.updateRet,
          Event.cleanExit 0] ++ s.releaseLater.destroy,
        s.toState, some 0⟩
  else
    -- "got invalid number of ir frames for calibration"
    ⟨s.releaseLater.destroy, s.toState, none⟩

/-- One pass through the body of `while (true)` (main.c, lines 326-444). -/
def iteration (st : State) (cap : Capture) : Step State :=
  -- frames = rs2_pipeline_wait_for_frames(rs_state.pipe, 30000, &e);
  let s0 := Scan.start st (st.e || cap.waitErr)
  if check_error s0.e ≠ 0 then
    ⟨Event.waitForFrames :: Event.cleanExit 1 :: s0.releaseLater.destroy, s0.toState, some 1⟩
  else
    -- int num_frames = rs2_embedded_frames_count(frames, &e);
    let s1 := { s0 with e := s0.e || cap.countErr }
    if check_error s1.e ≠ 0 then
      ⟨Event.waitForFrames :: Event.cleanExit 1 :: s1.releaseLater.destroy, s1.toState, some 1⟩
    else
      let scan := frameLoop 0 s1 cap.frames
      match scan.ret with
      | some code => ⟨Event.waitForFrames :: scan.events, scan.state.toState, some code⟩
      | none =>
        let r := feedOrCommit cap scan.state
        ⟨Event.waitForFrames :: scan.events ++ r.events, r.state, r.ret⟩

/-- The loop `while (true)` of main.c (lines 326-444) on the given captures. -/
def loop (st : State) (caps : List Capture) : Run :=
  runLoop iteration st caps

end MainC

/-! ## main.cpp -/

namespace MainCpp

/-- The constant `color_w` (main.cpp, line 41). -/
def color_w : Int := 1920
/-- The constant `color_h` (main.cpp, line 42). -/
def color_h : Int := 1080
/-- The constant `depth_w` (main.cpp, line 43). -/
def depth_w : Int := 1280
/-- The constant `depth_h` (main.cpp, line 44). -/
def depth_h : Int := 720

/-- Answers of the camera API about one frame of a frameset. -/
structure Frame where
  /-- Value of `f.is<rs2::depth_frame>()`. -/
  isDepth : Bool
  /-- Value of `f.is<rs2::video_frame>()`. -/
  isVideo : Bool
  /-- Value of `get_width()`. -/
  width : Int
  /-- Value of `get_height()`. -/
  height : Int
  /-- Pixel data behind `get_data()`. -/
  data : Nat
  deriving DecidableEq, Repr

/-- Everything the environment answers during one loop iteration. -/
structure Capture where
  /-- Value of `got_sigint` when it is tested at the top of the iteration. -/
  sigint : Bool
  /-- The call `pipeline.wait_for_frames(3000)` throws (timeout, device error). -/
  waitThrows : Bool
  /-- The frames of the frameset, in iteration order. -/
  frames : List Frame
  /-- Reading of `system_clock`, in whole milliseconds since the epoch. -/
  clock : Int
  /-- Answer of `IsGridFull` in this iteration. -/
  gridFull : Bool
  /-- Return value of `AddImages` in this iteration. -/
  addRet : DCCode
  /-- Return value of `UpdateCalibrationTables` in this iteration. -/
  updateRet : DCCode
  deriving DecidableEq, Repr

/-- Variables of main.cpp that outlive a loop iteration.  `d_width` and
`d_height` are declared before the loop without an initial value, so their
value at loop entry is arbitrary. -/
structure State where
  d_width : Int
  d_height : Int
  colorbuf : Nat
  irbuf_l : Nat
  irbuf_r : Nat
  depthbuf : Nat
  frames_got : Nat
  deriving DecidableEq, Repr

/-- Variables of one loop iteration while the frames are scanned. -/
structure Scan where
  d_width : Int
  d_height : Int
  colorbuf : Nat
  irbuf_l : Nat
  irbuf_r : Nat
  depthbuf : Nat
  got_depth : Bool
  got_color : Bool
  got_ir_left : Bool
  got_ir_right : Bool
  ir_index : Nat
  deriving DecidableEq, Repr

/-- State at loop entry: buffers zeroed, `d_width` and `d_height` holding
whatever the uninitialised variables hold. -/
def State.init (d_width d_height : Int) : State :=
  ⟨d_width, d_height, 0, 0, 0, 0, 0⟩

/-- Variables at the start of the frame loop (main.cpp, lines 259-263). -/
def Scan.start (st : State) : Scan :=
  ⟨st.d_width, st.d_height, st.colorbuf, st.irbuf_l, st.irbuf_r, st.depthbuf,
    false, false, false, false, 0⟩

/-- The variables the scan leaves for the rest of the iteration. -/
def Scan.toState (s : Scan) (frames_got : Nat) : State :=
  ⟨s.d_width, s.d_height, s.colorbuf, s.irbuf_l, s.irbuf_r, s.depthbuf, frames_got⟩

/-- Body of `for (auto&& f : frames)` (main.cpp, lines 266-315). -/
def frameBody (s : Scan) (f : Frame) : Step Scan :=
  if f.isDepth then
    -- d_width = dframe.get_width(); d_height = dframe.get_height();
    let s := { s with d_width := f.width, d_height := f.height }
    if s.d_width ≠ depth_w ∨ s.d_height ≠ depth_h then
      -- stop(pipeline); return 1;
      ⟨[Event.stop], s, some 1⟩
    else
      -- memcpy(depthbuf, depthdata, depth_w * depth_h * sizeof(uint16_t));
      ⟨[Event.memcpy Buffer.depth f.data],
        { s with depthbuf := f.data, got_depth := true }, none⟩
  else if f.isVideo then
    let c_width := f.width
    let c_height := f.height
    -- IR frames are sized the same as depth frames
    if c_width = s.d_width then
      if s.ir_index = 0 then
        ⟨[Event.memcpy Buffer.irLeft f.data],
          { s with irbuf_l := f.data, got_ir_left := true, ir_index := s.ir_index + 1 }, none⟩
      else
        ⟨[Event.memcpy Buffer.irRight f.data],
          { s with irbuf_r := f.data, got_ir_right := true, ir_index := s.ir_index + 1 }, none⟩
    else
      if c_width ≠ color_w ∨ c_height ≠ color_h then
        -- stop(pipeline); return 1;
        ⟨[Event.stop], s, some 1⟩
      else
        -- memcpy(colorbuf, colordata, color_w * color_h * 3);
        ⟨[Event.memcpy Buffer.color f.data],
          { s with colorbuf := f.data, got_color := true }, none⟩
  else
    ⟨[], s, none⟩

/-- The loop `for (auto&& f : frames)` over the remaining frames. -/
def frameLoop : Scan → List Frame → Step Scan
  | s, [] => ⟨[], s, none⟩
  | s, f :: rest =>
    match (frameBody s f).ret with
    | some code => ⟨(frameBody s f).events, (frameBody s f).state, some code⟩
    | none =>
      ⟨(frameBody s f).events ++ (frameLoop (frameBody s f).state rest).events,
        (frameLoop (frameBody s f).state rest).state,
        (frameLoop (frameBody s f).state rest).ret⟩

/-- The code after the loop (main.cpp, lines 398-403), reached by `break`:
`stop(pipeline); return 0;`. -/
def afterLoop (pre : List Event) (st : State) : Step State :=
  ⟨pre ++ [Event.stop], st, some 0⟩

/-- The rest of the loop body once the frame loop has run to its end
(main.cpp, lines 317-368). -/
def feedOrCommit (st : State) (cap : Capture) (s : Scan) : Step State :=
  if !s.got_color || !s.got_depth || !s.got_ir_left || !s.got_ir_right then
    -- "Did not get all frame types"; break;
    afterLoop [] (s.toState st.frames_got)
  else
    -- frames_got++ on a uint64_t
    let frames_got := (st.frames_got + 1) % 2 ^ 64
    let timestamp_ms : Int := cap.clock
    if !cap.gridFull then
      -- dyncal.AddImages(irbuf_l, irbuf_r, depthbuf, timestamp_ms);
      ⟨[Event.isGridFull false,
          Event.addImages s.irbuf_l s.irbuf_r s.depthbuf timestamp_ms cap.addRet],
        s.toState frames_got, none⟩
    else
      -- dyncal.UpdateCalibrationTables(); stop(pipeline); return 1;
      ⟨[Event.isGridFull true, Event.updateCalibrationTables cap.updateRet, Event.stop],
        s.toState frames_got, some 1⟩

/-- One pass through the body of `while (true)` (main.cpp, lines 249-396); a
`break` continues with the code after the loop.  The frame-time report at the
end of the body (lines 370-395) calls nothing outside the program and decides
nothing; it is not part of this function (see `trackerStep`). -/
def iteration (st : State) (cap : Capture) : Step State :=
  if cap.sigint then
    -- if (got_sigint) break;
    afterLoop [] st
  else if cap.waitThrows then
    -- the exception leaves main through a catch block: return 1;
    ⟨[Event.waitForFrames], st, some 1⟩
  else
    let scan := frameLoop (Scan.start st) cap.frames
    match scan.ret with
    | some code =>
      ⟨Event.waitForFrames :: scan.events, scan.state.toState st.frames_got, some code⟩
    | none =>
      let r := feedOrCommit st cap scan.state
      ⟨Event.waitForFrames :: scan.events ++ r.events, r.state, r.ret⟩

/-- The loop `while (true)` of main.cpp (lines 249-396) with the code after it,
on the given captures. -/
def loop (st : State) (caps : List Capture) : Run :=
  runLoop iteration st caps

end MainCpp


/-! ## Start of `main`: the return code of `dyncal.Initialize` -/

/-- The return codes on which the `switch` after `dyncal.Initialize` leaves
`main` (main.c, lines 312-323; main.cpp, lines 163-174). -/
def DCCode.isInitFailure : DCCode → Bool
  | .DC_ERROR_INVALID_PARAMETER => true
  | .DC_ERROR_RESOLUTION_NOT_SUPPORTED_V2 => true
  | .DC_ERROR_TABLE_NOT_SUPPORTED => true
  | .DC_ERROR_TABLE_NOT_VALID_RESOLUTION => true
  | _ => false

/-- Modelled from the spec: the result codes `dyncal.Initialize` returns.  The
header of the calibration engine that declares them is not part of the
repository; the spec gives the contract of the call: success, or one of four
failures (invalid parameter, unsupported resolution, calibration-table feature
unsupported, table present but for an invalid resolution), and no other return
shape.  These are the five codes the `switch` after the call names. -/
inductive InitResult where
  | DC_SUCCESS
  | DC_ERROR_INVALID_PARAMETER
  | DC_ERROR_RESOLUTION_NOT_SUPPORTED_V2
  | DC_ERROR_TABLE_NOT_SUPPORTED
  | DC_ERROR_TABLE_NOT_VALID_RESOLUTION
  deriving DecidableEq, Repr

/-- The value of `int retcode` for a result of `dyncal.Initialize`. -/
def InitResult.code : InitResult → DCCode
  | .DC_SUCCESS => DCCode.DC_SUCCESS
  | .DC_ERROR_INVALID_PARAMETER => DCCode.DC_ERROR_INVALID_PARAMETER
  | .DC_ERROR_RESOLUTION_NOT_SUPPORTED_V2 => DCCode.DC_ERROR_RESOLUTION_NOT_SUPPORTED_V2
  | .DC_ERROR_TABLE_NOT_SUPPORTED => DCCode.DC_ERROR_TABLE_NOT_SUPPORTED
  | .DC_ERROR_TABLE_NOT_VALID_RESOLUTION => DCCode.DC_ERROR_TABLE_NOT_VALID_RESOLUTION

/-- The function `main` of main.c from the call of `dyncal.Initialize` on
(lines 304-447), for the return code `retcode` of that call; the device
bring-up before it is outside the model.  The `switch` has no `default`
label: a return code it does not name falls through to the loop, like
`DC_SUCCESS`. -/
def MainC.mainFromInit (retcode : DCCode) (caps : List MainC.Capture) : Run :=
  match retcode with
  | .DC_SUCCESS => MainC.loop MainC.State.init caps
  | .DC_ERROR_INVALID_PARAMETER => ⟨[Event.cleanExit 1], some 1⟩
  | .DC_ERROR_RESOLUTION_NOT_SUPPORTED_V2 => ⟨[Event.cleanExit 1], some 1⟩
  | .DC_ERROR_TABLE_NOT_SUPPORTED => ⟨[Event.cleanExit 1], some 1⟩
  | .DC_ERROR_TABLE_NOT_VALID_RESOLUTION => ⟨[Event.cleanExit 1], some 1⟩
  | _ => MainC.loop MainC.State.init caps

/-- Outcome of the code of main.cpp between the `switch` on the return code of
`dyncal.Initialize` and the loop (lines 177-238). -/
structure MainCpp.Setup where
  /-- A librealsense call of that code throws; `main` returns 1 from a catch block. -/
  raises : Bool
  /-- Value of `enabled_preset` when it is tested at line 220. -/
  enabled_preset : Bool
  deriving DecidableEq, Repr

/-- The function `main` of main.cpp from the call of `dyncal.Initialize` on
(lines 155-404), for the return code `retcode` of that call; `d_width` and
`d_height` are the values the uninitialised variables hold at loop entry.
The `switch` has no `default` label: a return code it does not name falls
through, like `DC_SUCCESS`. -/
def MainCpp.mainFromInit (retcode : DCCode) (setup : MainCpp.Setup) (d_width d_height : Int)
    (caps : List MainCpp.Capture) : Run :=
  let rest : Run :=
    if setup.raises then ⟨[], some 1⟩
    else if setup.enabled_preset = false then ⟨[], some 1⟩
    else MainCpp.loop (MainCpp.State.init d_width d_height) caps
  match retcode with
  | .DC_SUCCESS => rest
  | .DC_ERROR_INVALID_PARAMETER => ⟨[], some 1⟩
  | .DC_ERROR_RESOLUTION_NOT_SUPPORTED_V2 => ⟨[], some 1⟩
  | .DC_ERROR_TABLE_NOT_SUPPORTED => ⟨[], some 1⟩
  | .DC_ERROR_TABLE_NOT_VALID_RESOLUTION => ⟨[], some 1⟩
  | _ => rest

/-! ## Frame-time report of main.cpp

The moving average over the last 100 iteration durations (main.cpp, lines
246-247 and 370-392).  The measured duration of an iteration is an input: a
`long long` count of milliseconds.  `int` is 32 bits wide and `size_t` 64
bits; a value converted to one of them is reduced modulo 2^32 or 2^64, and
`int` arithmetic that leaves the range wraps the same way. -/

/-- Conversion of an integer value to `int` (32 bits, two's complement). -/
def toInt32 (x : Int) : Int := (x + 2 ^ 31) % 2 ^ 32 - 2 ^ 31

/-- Conversion of an integer value to `size_t` (64 bits, unsigned). -/
def toSizeT (x : Int) : Int := x % 2 ^ 64

namespace MainCpp

/-- The variables `ftimes` and `dur_sum` (main.cpp, lines 246-247). -/
structure Tracker where
  /-- The `std::list<int>` of recorded durations, front first. -/
  ftimes : List Int
  dur_sum : Int
  deriving DecidableEq, Repr

/-- Values of the tracker before the loop: an empty list and `dur_sum = 0`. -/
def Tracker.init : Tracker := ⟨[], 0⟩

/-- What one pass through the frame-time report leaves behind: the tracker,
`avg_dur` and `avg_fps`, each `none` when its division has a zero divisor. -/
structure Report where
  tracker : Tracker
  avg_dur : Option Int
  avg_fps : Option Int
  deriving DecidableEq, Repr

/-- The statement `if (dur == 0) dur = 1;` (main.cpp, lines 373-375). -/
def clampDur (dur : Int) : Int := if dur = 0 then 1 else dur

/-- The duration an iteration records for the measured `dur`: the clamped value
converted to `int` by `ftimes.push_back(dur)`. -/
def recorded (dur : Int) : Int := toInt32 (clampDur dur)

/-- The frame-time report at the end of the loop body (main.cpp, lines
372-392) for the measured duration `dur`, a `long long` count of milliseconds. -/
def trackerStep (t : Tracker) (dur : Int) : Report :=
  -- if (dur == 0) dur = 1;
  let dur := clampDur dur
  -- ftimes.push_back(dur);
  let ftimes := t.ftimes ++ [toInt32 dur]
  -- if (ftimes.size() > 100) { dur_sum -= ftimes.front(); ftimes.pop_front(); }
  let dur_sum := if ftimes.length > 100 then toInt32 (t.dur_sum - ftimes.headD 0) else t.dur_sum
  let ftimes := if ftimes.length > 100 then ftimes.tail else ftimes
  -- dur_sum += dur;
  let dur_sum := toInt32 (dur_sum + dur)
  -- int avg_dur = dur_sum / ftimes.size();
  let avg_dur : Option Int :=
    if ftimes.length = 0 then none
    else some (toInt32 (toSizeT dur_sum / (ftimes.length : Int)))
  -- if (dur_sum == 0) dur_sum = 1;
  let dur_sum := if dur_sum = 0 then 1 else dur_sum
  -- int avg_fps = 1000 / avg_dur;
  let avg_fps : Option Int :=
    match avg_dur with
    | none => none
    | some a => if a = 0 then none else some (Int.tdiv 1000 a)
  ⟨⟨ftimes, dur_sum⟩, avg_dur, avg_fps⟩

/-- The tracker after the reports for the measured durations `durs`, one per
completed iteration; `none` when one of the reports divides by zero. -/
def trackerRun : Tracker → List Int → Option Tracker
  | t, [] => some t
  | t, dur :: rest =>
    match (trackerStep t dur).avg_fps with
    | none => none
    | some _ => trackerRun (trackerStep t dur).tracker rest

/-- The last `n` elements of a list, in order. -/
def lastN (n : Nat) (l : List Int) : List Int := l.drop (l.length - n)

end MainCpp

/-! ## Sample inputs -/

/-- A depth frame of the configured resolution, answered without error. -/
def MainC.depthFrame (h d : Nat) : MainC.Frame :=
  ⟨h, false, true, false, true, false, 1280, 720, false, d, false⟩

/-- An infrared frame of the configured resolution, answered without error. -/
def MainC.irFrame (h d : Nat) : MainC.Frame :=
  ⟨h, false, false, false, true, false, 1280, 720, false, d, false⟩

/-- A color frame of the configured resolution, answered without error. -/
def MainC.colorFrame (h d : Nat) : MainC.Frame :=
  ⟨h, false, false, false, true, false, 1920, 1080, false, d, false⟩

/-- A capture with handle 100 delivered without error at clock reading 5000 ms;
`AddImages` would answer `DC_SUCCESS`. -/
def MainC.capture (frames : List MainC.Frame) (gridFull : Bool) (updateRet : DCCode) :
    MainC.Capture :=
  ⟨100, false, false, frames, 5000, gridFull, DCCode.DC_SUCCESS, updateRet⟩

/-- The capture the stream configuration produces: depth, color, infrared 1,
infrared 2. -/
def MainC.fullFrames : List MainC.Frame :=
  [MainC.depthFrame 1 11, MainC.colorFrame 2 12, MainC.irFrame 3 13, MainC.irFrame 4 14]

/-- A depth frame of the configured resolution. -/
def MainCpp.depthFrame (d : Nat) : MainCpp.Frame := ⟨true, true, 1280, 720, d⟩

/-- An infrared frame of the configured resolution. -/
def MainCpp.irFrame (d : Nat) : MainCpp.Frame := ⟨false, true, 1280, 720, d⟩

/-- A color frame of the configured resolution. -/
def MainCpp.colorFrame (d : Nat) : MainCpp.Frame := ⟨false, true, 1920, 1080, d⟩

/-- A capture delivered without interrupt or exception at clock reading
5000 ms; `AddImages` would answer `DC_SUCCESS`. -/
def MainCpp.capture (frames : List MainCpp.Frame) (gridFull : Bool) (updateRet : DCCode) :
    MainCpp.Capture :=
  ⟨false, false, frames, 5000, gridFull, DCCode.DC_SUCCESS, updateRet⟩

/-- The capture the stream configuration produces: depth, color, infrared 1,
infrared 2. -/
def MainCpp.fullFrames : List MainCpp.Frame :=
  [MainCpp.depthFrame 11, MainCpp.colorFrame 12, MainCpp.irFrame 13, MainCpp.irFrame 14]

/-- The one-capture run of main.c in which the grid is already full. -/
def MainC.commitRun : List MainC.Capture :=
  [MainC.capture MainC.fullFrames true DCCode.DC_SUCCESS]

/-- Events of `MainC.commitRun` before the engine is asked. -/
def MainC.commitRunScan : List Event :=
  [Event.waitForFrames, Event.extractFrame 1, Event.memcpy Buffer.depth 11,
   Event.extractFrame 2, Event.extractFrame 3, Event.memcpy Buffer.irLeft 13,
   Event.extractFrame 4, Event.memcpy Buffer.irRight 14]

/-- Events of `MainC.commitRun` after the commit. -/
def MainC.commitRunTail : List Event :=
  [Event.cleanExit 0, Event.releaseFrame 1, Event.releaseFrame 1, Event.releaseFrame 2,
   Event.releaseFrame 3, Event.releaseFrame 4]

/-- The one-capture run of main.cpp in which the grid is already full. -/
def MainCpp.commitRun : List MainCpp.Capture :=
  [MainCpp.capture MainCpp.fullFrames true DCCode.DC_SUCCESS]

/-- Events of `MainCpp.commitRun` before the engine is asked. -/
def MainCpp.commitRunScan : List Event :=
  [Event.waitForFrames, Event.memcpy Buffer.depth 11, Event.memcpy Buffer.color 12,
   Event.memcpy Buffer.irLeft 13, Event.memcpy Buffer.irRight 14]

/-! ## Predicates used in the statements -/

/-- The scan flags of main.cpp that are set are backed by a copy from a frame
of the list `frames` among the events `evs`, unless they were set before. -/
def MainCpp.FlagsBacked (s0 s : MainCpp.Scan) (frames : List MainCpp.Frame)
    (evs : List Event) : Prop :=
  (s.got_depth = true → s0.got_depth = true ∨
    ∃ f ∈ frames, Event.memcpy Buffer.depth f.data ∈ evs) ∧
  (s.got_ir_left = true → s0.got_ir_left = true ∨
    ∃ f ∈ frames, Event.memcpy Buffer.irLeft f.data ∈ evs) ∧
  (s.got_ir_right = true → s0.got_ir_right = true ∨
    ∃ f ∈ frames, Event.memcpy Buffer.irRight f.data ∈ evs) ∧
  (s.got_color = true → s0.got_color = true ∨
    ∃ f ∈ frames, Event.memcpy Buffer.color f.data ∈ evs)

/-- A frame that main.cpp classifies as depth or as color while its resolution
is not the one of the buffer: a depth frame that is not 1280 x 720, or a video
frame whose width differs from `d_width` and that is not 1920 x 1080. -/
def MainCpp.Mismatched (d_width : Int) (f : MainCpp.Frame) : Prop :=
  (f.isDepth = true ∧ (f.width ≠ MainCpp.depth_w ∨ f.height ≠ MainCpp.depth_h)) ∨
  (f.isDepth = false ∧ f.isVideo = true ∧ f.width ≠ d_width ∧
    (f.width ≠ MainCpp.color_w ∨ f.height ≠ MainCpp.color_h))

instance (d_width : Int) (f : MainCpp.Frame) : Decidable (MainCpp.Mismatched d_width f) := by
  unfold MainCpp.Mismatched
  infer_instance

/-! ## Trace checkers -/

/-- Checker: no event satisfying `bad` occurs after an event satisfying `trig`
(`seen` says that a trigger has already occurred). -/
def noneAfter (trig bad : Event → Bool) : Bool → List Event → Bool
  | _, [] => true
  | seen, ev :: rest => !(seen && bad ev) && noneAfter trig bad (seen || trig ev) rest

/-- Checker: every event satisfying `p` comes directly after the event `req`
(`prev` says that the event before the list is `req`). -/
def eachPreceded (p : Event → Bool) (req : Event) : Bool → List Event → Bool
  | _, [] => true
  | prev, ev :: rest => (!p ev || prev) && eachPreceded p req (decide (ev = req)) rest

/-- The events of one loop iteration are device calls, optionally followed by
one exchange with the calibration engine: either `IsGridFull` answering false
and `AddImages`, after which the iteration does not return from `main`, or
`IsGridFull` answering true and `UpdateCalibrationTables`, after which it does. -/
def IterShape {σ : Type} (r : Step σ) : Prop :=
  ∃ q t, r.events = q ++ t ∧ (∀ ev ∈ q, ev.isEngine = false) ∧
    (t = [] ∨
     (r.ret = none ∧ ∃ l rt d ts c z, t = Event.isGridFull false :: Event.addImages l rt d ts c :: z ∧
        ∀ ev ∈ z, ev.isEngine = false ∧ ev.isWait = false) ∨
     (∃ code c z, r.ret = some code ∧
        t = Event.isGridFull true :: Event.updateCalibrationTables c :: z ∧
        ∀ ev ∈ z, ev.isEngine = false ∧ ev.isWait = false))

/-! ## Trace properties -/

theorem noneAfter_seen (trig bad : Event → Bool) (l : List Event) :
    noneAfter trig bad true l = true ↔ ∀ ev ∈ l, bad ev = false := by
  induction l with
  | nil => simp [noneAfter]
  | cons x xs ih => simp [noneAfter, ih]

theorem noneAfter_of_clean (trig bad : Event → Bool) (seen : Bool) (l : List Event)
    (h : ∀ ev ∈ l, bad ev = false) : noneAfter trig bad seen l = true := by
  induction l generalizing seen with
  | nil => simp [noneAfter]
  | cons x xs ih =>
    simp only [List.mem_cons, forall_eq_or_imp] at h
    simp [noneAfter, h.1, ih _ h.2]

theorem noneAfter_split (trig bad : Event → Bool) (seen : Bool) (pre post : List Event)
    (x : Event) (h : noneAfter trig bad seen (pre ++ x :: post) = true) (hx : trig x = true) :
    ∀ ev ∈ post, bad ev = false := by
  induction pre generalizing seen with
  | nil =>
    simp only [List.nil_append, noneAfter, hx, Bool.or_true, Bool.and_eq_true] at h
    exact (noneAfter_seen trig bad post).1 h.2
  | cons y ys ih =>
    simp only [List.cons_append, noneAfter, Bool.and_eq_true] at h
    exact ih _ h.2

theorem noneAfter_append_quiet (trig bad : Event → Bool) (a b : List Event)
    (h : ∀ ev ∈ a, trig ev = false) :
    noneAfter trig bad false (a ++ b) = noneAfter trig bad false b := by
  induction a with
  | nil => rfl
  | cons x xs ih =>
    simp only [List.mem_cons, forall_eq_or_imp] at h
    simp [noneAfter, h.1, ih h.2]

theorem eachPreceded_split (p : Event → Bool) (req : Event) (prev : Bool)
    (pre post : List Event) (x : Event)
    (h : eachPreceded p req prev (pre ++ x :: post) = true) (hx : p x = true) :
    (pre = [] ∧ prev = true) ∨ ∃ before, pre = before ++ [req] := by
  induction pre generalizing prev with
  | nil =>
    simp only [List.nil_append, eachPreceded, hx, Bool.not_true, Bool.false_or,
      Bool.and_eq_true] at h
    exact Or.inl ⟨rfl, h.1⟩
  | cons y ys ih =>
    simp only [List.cons_append, eachPreceded, Bool.and_eq_true] at h
    rcases ih _ h.2 with ⟨hys, hy⟩ | ⟨before, hb⟩
    · right
      refine ⟨[], ?_⟩
      simp only [decide_eq_true_eq] at hy
      simp [hys, hy]
    · right
      exact ⟨y :: before, by simp [hb]⟩

theorem eachPreceded_append_quiet (p : Event → Bool) (req : Event) (a b : List Event)
    (h : ∀ ev ∈ a, p ev = false ∧ ev ≠ req) :
    eachPreceded p req false (a ++ b) = eachPreceded p req false b := by
  induction a with
  | nil => rfl
  | cons x xs ih =>
    simp only [List.mem_cons, forall_eq_or_imp] at h
    simp [eachPreceded, h.1.1, h.1.2, ih h.2]

theorem eachPreceded_of_clean (p : Event → Bool) (req : Event) (prev : Bool) (l : List Event)
    (h : ∀ ev ∈ l, p ev = false) : eachPreceded p req prev l = true := by
  induction l generalizing prev with
  | nil => simp [eachPreceded]
  | cons x xs ih =>
    simp only [List.mem_cons, forall_eq_or_imp] at h
    simp [eachPreceded, h.1, ih _ h.2]

theorem Event.not_engine {ev : Event} (h : ev.isEngine = false) :
    ev.isUpdate = false ∧ ev.isAddImages = false ∧ ∀ b, ev ≠ Event.isGridFull b := by
  cases ev <;> simp_all [Event.isEngine, Event.isUpdate, Event.isAddImages]

theorem Event.not_engine_full {ev : Event} (h : ev.isEngine = false) : ev.isFull = false := by
  simp [Event.isFull, (Event.not_engine h).2.2 true]

theorem IterShape.quiet_of_continue {σ : Type} {r : Step σ} (h : IterShape r)
    (hr : r.ret = none) : ∀ ev ∈ r.events, ev.isFull = false ∧ ev.isUpdate = false := by
  obtain ⟨q, t, he, hq, ht⟩ := h
  intro ev hev
  rw [he, List.mem_append] at hev
  rcases hev with hev | hev
  · exact ⟨Event.not_engine_full (hq ev hev), (Event.not_engine (hq ev hev)).1⟩
  · rcases ht with rfl | ⟨_, l, rt, d, ts, c, z, rfl, hz⟩ | ⟨code, c, z, hc, _, _⟩
    · simp at hev
    · simp only [List.mem_cons] at hev
      rcases hev with rfl | rfl | hev
      · simp [Event.isFull, Event.isUpdate]
      · simp [Event.isFull, Event.isUpdate]
      · exact ⟨Event.not_engine_full (hz ev hev).1, (Event.not_engine (hz ev hev).1).1⟩
    · rw [hr] at hc
      cases hc

theorem noneAfter_no_trigger (trig bad : Event → Bool) (l : List Event)
    (h : ∀ ev ∈ l, trig ev = false) : noneAfter trig bad false l = true := by
  have := noneAfter_append_quiet trig bad l [] h
  simpa [noneAfter] using this

theorem IterShape.noFeed {σ : Type} {r : Step σ} (h : IterShape r) :
    noneAfter Event.isFull Event.isAddImages false r.events = true := by
  obtain ⟨q, t, he, hq, ht⟩ := h
  rw [he, noneAfter_append_quiet _ _ _ _ (fun ev hev => Event.not_engine_full (hq ev hev))]
  rcases ht with rfl | ⟨_, l, rt, d, ts, c, z, rfl, hz⟩ | ⟨code, c, z, _, rfl, hz⟩
  · rfl
  · apply noneAfter_no_trigger
    intro ev hev
    simp only [List.mem_cons] at hev
    rcases hev with rfl | rfl | hev
    · simp [Event.isFull]
    · simp [Event.isFull]
    · exact Event.not_engine_full (hz ev hev).1
  · have hfull : Event.isFull (Event.isGridFull true) = true := by simp [Event.isFull]
    rw [noneAfter, noneAfter, hfull]
    simp only [Bool.false_and, Bool.not_false, Bool.true_and, Bool.false_or, Bool.true_or,
      Event.isAddImages, Bool.and_eq_true]
    exact noneAfter_of_clean _ _ _ _ (fun ev hev => (Event.not_engine (hz ev hev).1).2.1)

theorem IterShape.afterUpdate {σ : Type} {r : Step σ} (h : IterShape r) :
    noneAfter Event.isUpdate Event.isLoopCall false r.events = true := by
  obtain ⟨q, t, he, hq, ht⟩ := h
  rw [he, noneAfter_append_quiet _ _ _ _ (fun ev hev => (Event.not_engine (hq ev hev)).1)]
  rcases ht with rfl | ⟨_, l, rt, d, ts, c, z, rfl, hz⟩ | ⟨code, c, z, _, rfl, hz⟩
  · rfl
  · apply noneAfter_no_trigger
    intro ev hev
    simp only [List.mem_cons] at hev
    rcases hev with rfl | rfl | hev
    · simp [Event.isUpdate]
    · simp [Event.isUpdate]
    · exact (Event.not_engine (hz ev hev).1).1
  · rw [noneAfter, noneAfter]
    simp only [Bool.false_and, Bool.not_false, Bool.true_and, Bool.false_or,
      Event.isUpdate, Bool.and_eq_true]
    apply noneAfter_of_clean
    intro ev hev
    have h1 := Event.not_engine (hz ev hev).1
    simp [Event.isLoopCall, h1.1, h1.2.1, (hz ev hev).2]

theorem IterShape.preceded {σ : Type} {r : Step σ} (h : IterShape r) :
    eachPreceded Event.isUpdate (Event.isGridFull true) false r.events = true := by
  obtain ⟨q, t, he, hq, ht⟩ := h
  rw [he, eachPreceded_append_quiet _ _ _ _
    (fun ev hev => ⟨(Event.not_engine (hq ev hev)).1, (Event.not_engine (hq ev hev)).2.2 true⟩)]
  rcases ht with rfl | ⟨_, l, rt, d, ts, c, z, rfl, hz⟩ | ⟨code, c, z, _, rfl, hz⟩
  · rfl
  · apply eachPreceded_of_clean
    intro ev hev
    simp only [List.mem_cons] at hev
    rcases hev with rfl | rfl | hev
    · simp [Event.isUpdate]
    · simp [Event.isUpdate]
    · exact (Event.not_engine (hz ev hev).1).1
  · rw [eachPreceded, eachPreceded]
    simp only [Event.isUpdate, Bool.not_false, Bool.true_or, Bool.true_and, decide_True,
      Bool.or_true, Bool.and_eq_true]
    exact eachPreceded_of_clean _ _ _ _ (fun ev hev => (Event.not_engine (hz ev hev).1).1)

/-! ### From one iteration to the whole loop -/

theorem runLoop_noneAfter {σ ι : Type} (trig bad : Event → Bool) (body : σ → ι → Step σ)
    (h1 : ∀ st inp, noneAfter trig bad false (body st inp).events = true)
    (h2 : ∀ st inp, (body st inp).ret = none → ∀ ev ∈ (body st inp).events, trig ev = false)
    (st : σ) (inps : List ι) : noneAfter trig bad false (runLoop body st inps).events = true := by
  induction inps generalizing st with
  | nil => rfl
  | cons inp rest ih =>
    unfold runLoop
    cases hr : (body st inp).ret with
    | some code => simpa using h1 st inp
    | none =>
      simp only
      rw [noneAfter_append_quiet _ _ _ _ (h2 st inp hr)]
      exact ih _

theorem runLoop_eachPreceded {σ ι : Type} (p : Event → Bool) (req : Event)
    (body : σ → ι → Step σ)
    (h1 : ∀ st inp, eachPreceded p req false (body st inp).events = true)
    (h2 : ∀ st inp, (body st inp).ret = none →
      ∀ ev ∈ (body st inp).events, p ev = false ∧ ev ≠ req)
    (st : σ) (inps : List ι) : eachPreceded p req false (runLoop body st inps).events = true := by
  induction inps generalizing st with
  | nil => rfl
  | cons inp rest ih =>
    unfold runLoop
    cases hr : (body st inp).ret with
    | some code => simpa using h1 st inp
    | none =>
      simp only
      rw [eachPreceded_append_quiet _ _ _ _ (h2 st inp hr)]
      exact ih _

theorem runLoop_exit_of_mem {σ ι : Type} (p : Event → Bool) (body : σ → ι → Step σ)
    (h2 : ∀ st inp, (body st inp).ret = none → ∀ ev ∈ (body st inp).events, p ev = false)
    (st : σ) (inps : List ι) (ev : Event) (hev : ev ∈ (runLoop body st inps).events)
    (hp : p ev = true) : ∃ code, (runLoop body st inps).exit = some code := by
  induction inps generalizing st with
  | nil => simp [runLoop] at hev
  | cons inp rest ih =>
    unfold runLoop at hev ⊢
    cases hr : (body st inp).ret with
    | some code => exact ⟨code, by simp⟩
    | none =>
      simp only [hr, List.mem_append] at hev ⊢
      rcases hev with hev | hev
      · rw [h2 st inp hr ev hev] at hp
        cases hp
      · exact ih _ hev

/-! ### Shape of one iteration of main.c -/

theorem MainC.destroy_quiet (r : MainC.ReleaseLater) :
    ∀ ev ∈ r.destroy, ev.isEngine = false ∧ ev.isWait = false := by
  intro ev hev
  simp only [MainC.ReleaseLater.destroy, List.mem_map] at hev
  obtain ⟨h, _, rfl⟩ := hev
  simp [Event.isEngine, Event.isWait]

theorem MainC.returnCleanExit_quiet (code : Int) (pre : List Event) (s : MainC.Scan)
    (hpre : ∀ ev ∈ pre, ev.isEngine = false) :
    ∀ ev ∈ (MainC.returnCleanExit code pre s).events, ev.isEngine = false := by
  intro ev hev
  simp only [MainC.returnCleanExit, List.mem_append, List.mem_cons] at hev
  rcases hev with hev | rfl | hev
  · exact hpre ev hev
  · rfl
  · exact (MainC.destroy_quiet _ ev hev).1

theorem MainC.c_frameBody_quiet (f : Nat) (s : MainC.Scan) (fr : MainC.Frame) :
    ∀ ev ∈ (MainC.frameBody f s fr).events, ev.isEngine = false := by
  have hx : ∀ ev ∈ [Event.extractFrame fr.handle], ev.isEngine = false := by
    intro ev hev
    simp only [List.mem_singleton] at hev
    subst hev
    rfl
  unfold MainC.frameBody
  simp only
  split_ifs <;>
    first
    | exact MainC.returnCleanExit_quiet _ _ _ hx
    | (intro ev hev
       simp only [List.mem_cons, List.mem_singleton, List.not_mem_nil, or_false] at hev
       rcases hev with rfl | rfl <;> rfl)

theorem MainC.c_frameLoop_quiet (f : Nat) (s : MainC.Scan) (frames : List MainC.Frame) :
    ∀ ev ∈ (MainC.frameLoop f s frames).events, ev.isEngine = false := by
  induction frames generalizing f s with
  | nil => simp [MainC.frameLoop]
  | cons fr rest ih =>
    unfold MainC.frameLoop
    simp only
    cases hr : (MainC.frameBody f s fr).ret with
    | some code => exact MainC.c_frameBody_quiet f s fr
    | none =>
      intro ev hev
      simp only [List.mem_append] at hev
      rcases hev with hev | hev
      · exact MainC.c_frameBody_quiet f s fr ev hev
      · exact ih _ _ ev hev

theorem IterShape.of_quiet {σ : Type} (r : Step σ) (h : ∀ ev ∈ r.events, ev.isEngine = false) :
    IterShape r :=
  ⟨r.events, [], by simp, h, Or.inl rfl⟩

theorem IterShape.prepend {σ : Type} (pre : List Event) (r : Step σ)
    (hpre : ∀ ev ∈ pre, ev.isEngine = false) (h : IterShape r) :
    IterShape (⟨pre ++ r.events, r.state, r.ret⟩ : Step σ) := by
  obtain ⟨q, t, he, hq, ht⟩ := h
  refine ⟨pre ++ q, t, by simp [he], ?_, ht⟩
  intro ev hev
  simp only [List.mem_append] at hev
  rcases hev with hev | hev
  · exact hpre ev hev
  · exact hq ev hev

theorem quiet_wait_cons (l : List Event) (h : ∀ ev ∈ l, ev.isEngine = false) :
    ∀ ev ∈ Event.waitForFrames :: l, ev.isEngine = false := by
  intro ev hev
  simp only [List.mem_cons] at hev
  rcases hev with rfl | hev
  · rfl
  · exact h ev hev

theorem MainC.c_feedOrCommit_shape (cap : MainC.Capture) (s : MainC.Scan) :
    IterShape (MainC.feedOrCommit cap s) := by
  unfold MainC.feedOrCommit
  simp only
  split_ifs with h3 h4
  · exact ⟨[], _, rfl, by simp, Or.inr (Or.inl ⟨rfl, _, _, _, _, _, _, rfl, MainC.destroy_quiet _⟩)⟩
  · refine ⟨[], _, rfl, by simp,
      Or.inr (Or.inr ⟨0, cap.updateRet, Event.cleanExit 0 :: _, rfl, rfl, ?_⟩)⟩
    intro ev hev
    simp only [List.mem_cons] at hev
    rcases hev with rfl | hev
    · exact ⟨rfl, rfl⟩
    · exact MainC.destroy_quiet _ ev hev
  · exact IterShape.of_quiet _ (fun ev hev => (MainC.destroy_quiet _ ev hev).1)

theorem MainC.c_iteration_shape (st : MainC.State) (cap : MainC.Capture) :
    IterShape (MainC.iteration st cap) := by
  unfold MainC.iteration
  simp only
  split_ifs with h1 h2
  · apply IterShape.of_quiet
    exact quiet_wait_cons _ (MainC.returnCleanExit_quiet 1 [] _ (by simp))
  · apply IterShape.of_quiet
    exact quiet_wait_cons _ (MainC.returnCleanExit_quiet 1 [] _ (by simp))
  · generalize hs1 : ({ MainC.Scan.start st (st.e || cap.waitErr) with
        e := (MainC.Scan.start st (st.e || cap.waitErr)).e || cap.countErr } : MainC.Scan) = s1
    have hscan := MainC.c_frameLoop_quiet 0 s1 cap.frames
    split
    · exact IterShape.of_quiet _ (quiet_wait_cons _ hscan)
    · exact IterShape.prepend (Event.waitForFrames :: _) _ (quiet_wait_cons _ hscan)
        (MainC.c_feedOrCommit_shape cap _)

/-! ### Shape of one iteration of main.cpp -/

theorem MainCpp.cpp_frameBody_quiet (s : MainCpp.Scan) (f : MainCpp.Frame) :
    ∀ ev ∈ (MainCpp.frameBody s f).events, ev.isEngine = false := by
  unfold MainCpp.frameBody
  simp only
  split_ifs <;> simp [Event.isEngine]

theorem MainCpp.cpp_frameLoop_quiet (s : MainCpp.Scan) (frames : List MainCpp.Frame) :
    ∀ ev ∈ (MainCpp.frameLoop s frames).events, ev.isEngine = false := by
  induction frames generalizing s with
  | nil => simp [MainCpp.frameLoop]
  | cons f rest ih =>
    unfold MainCpp.frameLoop
    cases hr : (MainCpp.frameBody s f).ret with
    | some code => exact MainCpp.cpp_frameBody_quiet s f
    | none =>
      intro ev hev
      simp only [List.mem_append] at hev
      rcases hev with hev | hev
      · exact MainCpp.cpp_frameBody_quiet s f ev hev
      · exact ih _ ev hev

theorem MainCpp.cpp_feedOrCommit_shape (st : MainCpp.State) (cap : MainCpp.Capture)
    (s : MainCpp.Scan) : IterShape (MainCpp.feedOrCommit st cap s) := by
  unfold MainCpp.feedOrCommit
  simp only
  split_ifs with h3 h4
  · apply IterShape.of_quiet
    simp [MainCpp.afterLoop, Event.isEngine]
  · exact ⟨[], _, rfl, by simp, Or.inr (Or.inl ⟨rfl, _, _, _, _, _, [], rfl, by simp⟩)⟩
  · refine ⟨[], _, rfl, by simp,
      Or.inr (Or.inr ⟨1, cap.updateRet, [Event.stop], rfl, rfl, ?_⟩)⟩
    simp [Event.isEngine, Event.isWait]

theorem MainCpp.cpp_iteration_shape (st : MainCpp.State) (cap : MainCpp.Capture) :
    IterShape (MainCpp.iteration st cap) := by
  unfold MainCpp.iteration
  simp only
  split_ifs with h1 h2
  · apply IterShape.of_quiet
    simp [MainCpp.afterLoop, Event.isEngine]
  · apply IterShape.of_quiet
    simp [Event.isEngine]
  · have hscan := MainCpp.cpp_frameLoop_quiet (MainCpp.Scan.start st) cap.frames
    split
    · exact IterShape.of_quiet _ (quiet_wait_cons _ hscan)
    · exact IterShape.prepend (Event.waitForFrames :: _) _ (quiet_wait_cons _ hscan)
        (MainCpp.cpp_feedOrCommit_shape st cap _)

/-! ### Properties of every run of a loop whose iterations have the shape -/

theorem shaped_noFeed {σ ι : Type} (body : σ → ι → Step σ) (hb : ∀ st inp, IterShape (body st inp))
    (st : σ) (inps : List ι) (pre post : List Event)
    (h : (runLoop body st inps).events = pre ++ Event.isGridFull true :: post) :
    ∀ ev ∈ post, ev.isAddImages = false := by
  have hchk := runLoop_noneAfter Event.isFull Event.isAddImages body
    (fun st inp => (hb st inp).noFeed)
    (fun st inp hr ev hev => ((hb st inp).quiet_of_continue hr ev hev).1) st inps
  rw [h] at hchk
  exact noneAfter_split _ _ _ _ _ _ hchk (by simp [Event.isFull])

theorem shaped_preceded {σ ι : Type} (body : σ → ι → Step σ)
    (hb : ∀ st inp, IterShape (body st inp))
    (st : σ) (inps : List ι) (pre post : List Event) (c : DCCode)
    (h : (runLoop body st inps).events = pre ++ Event.updateCalibrationTables c :: post) :
    ∃ before, pre = before ++ [Event.isGridFull true] := by
  have hchk := runLoop_eachPreceded Event.isUpdate (Event.isGridFull true) body
    (fun st inp => (hb st inp).preceded)
    (fun st inp hr ev hev =>
      ⟨((hb st inp).quiet_of_continue hr ev hev).2, by
        have := ((hb st inp).quiet_of_continue hr ev hev).1
        simpa [Event.isFull] using this⟩) st inps
  rw [h] at hchk
  rcases eachPreceded_split _ _ _ _ _ _ hchk rfl with ⟨_, hf⟩ | hbef
  · cases hf
  · exact hbef

theorem shaped_afterUpdate {σ ι : Type} (body : σ → ι → Step σ)
    (hb : ∀ st inp, IterShape (body st inp))
    (st : σ) (inps : List ι) (pre post : List Event) (c : DCCode)
    (h : (runLoop body st inps).events = pre ++ Event.updateCalibrationTables c :: post) :
    (∃ code, (runLoop body st inps).exit = some code) ∧
    ∀ ev ∈ post, ev.isWait = false ∧ ev.isAddImages = false ∧ ev.isUpdate = false := by
  constructor
  · apply runLoop_exit_of_mem Event.isUpdate body
      (fun st inp hr ev hev => ((hb st inp).quiet_of_continue hr ev hev).2) st inps
      (Event.updateCalibrationTables c)
    · rw [h]; simp
    · rfl
  · have hchk := runLoop_noneAfter Event.isUpdate Event.isLoopCall body
      (fun st inp => (hb st inp).afterUpdate)
      (fun st inp hr ev hev => ((hb st inp).quiet_of_continue hr ev hev).2) st inps
    rw [h] at hchk
    intro ev hev
    have := noneAfter_split _ _ _ _ _ _ hchk rfl ev hev
    simpa [Event.isLoopCall, and_assoc] using this

theorem noneAfter_count (l : List Event) (seen : Bool)
    (h : noneAfter Event.isUpdate Event.isLoopCall seen l = true) :
    (l.filter Event.isUpdate).length ≤ (if seen then 0 else 1) := by
  induction l generalizing seen with
  | nil => simp
  | cons x xs ih =>
    simp only [noneAfter, Bool.and_eq_true] at h
    have ih2 := ih _ h.2
    cases hx : x.isUpdate with
    | false =>
      simp only [hx, Bool.or_false] at ih2
      simpa [List.filter, hx] using ih2
    | true =>
      simp only [hx, Bool.or_true, if_true, Nat.le_zero] at ih2
      have hseen : seen = false := by
        cases seen with
        | false => rfl
        | true => simp [Event.isLoopCall, hx] at h
      simp [List.filter, hx, hseen, ih2]

theorem shaped_update_once {σ ι : Type} (body : σ → ι → Step σ)
    (hb : ∀ st inp, IterShape (body st inp)) (st : σ) (inps : List ι) :
    ((runLoop body st inps).events.filter Event.isUpdate).length ≤ 1 := by
  have hchk := runLoop_noneAfter Event.isUpdate Event.isLoopCall body
    (fun st inp => (hb st inp).afterUpdate)
    (fun st inp hr ev hev => ((hb st inp).quiet_of_continue hr ev hev).2) st inps
  simpa using noneAfter_count _ false hchk

theorem IterShape.full_no_add {σ : Type} {r : Step σ} (h : IterShape r)
    (hfull : Event.isGridFull true ∈ r.events) :
    (∃ code, r.ret = some code) ∧ ∀ ev ∈ r.events, ev.isAddImages = false := by
  cases hr : r.ret with
  | none =>
    have := (h.quiet_of_continue hr _ hfull).1
    simp [Event.isFull] at this
  | some code =>
    refine ⟨⟨code, rfl⟩, ?_⟩
    obtain ⟨q, t, he, hq, ht⟩ := h
    intro ev hev
    rw [he, List.mem_append] at hev
    rcases hev with hev | hev
    · exact (Event.not_engine (hq ev hev)).2.1
    · rcases ht with rfl | ⟨hn, _⟩ | ⟨_, c, z, _, rfl, hz⟩
      · simp at hev
      · rw [hr] at hn
        cases hn
      · simp only [List.mem_cons] at hev
        rcases hev with rfl | rfl | hev
        · rfl
        · rfl
        · exact (Event.not_engine (hz ev hev).1).2.1

/-! ## The claims -/

/-- C3: in both front-ends, for every sequence of captures and engine answers,
(1) an iteration in which `IsGridFull` answers true returns from `main` and
calls `AddImages` nowhere, (2) no `AddImages` call follows an `IsGridFull`
call that answered true anywhere in the run, and (3) every call of
`UpdateCalibrationTables` comes directly after an `IsGridFull` call that
answered true. -/
theorem feed_stops_when_full_commit_needs_full
    (stC : MainC.State) (capC : MainC.Capture) (capsC : List MainC.Capture)
    (stP : MainCpp.State) (capP : MainCpp.Capture) (capsP : List MainCpp.Capture) :
    (Event.isGridFull true ∈ (MainC.iteration stC capC).events →
      (∃ code, (MainC.iteration stC capC).ret = some code) ∧
      ∀ ev ∈ (MainC.iteration stC capC).events, ev.isAddImages = false) ∧
    (∀ pre post, (MainC.loop stC capsC).events = pre ++ Event.isGridFull true :: post →
      ∀ ev ∈ post, ev.isAddImages = false) ∧
    (∀ pre post c,
      (MainC.loop stC capsC).events = pre ++ Event.updateCalibrationTables c :: post →
      ∃ before, pre = before ++ [Event.isGridFull true]) ∧
    (Event.isGridFull true ∈ (MainCpp.iteration stP capP).events →
      (∃ code, (MainCpp.iteration stP capP).ret = some code) ∧
      ∀ ev ∈ (MainCpp.iteration stP capP).events, ev.isAddImages = false) ∧
    (∀ pre post, (MainCpp.loop stP capsP).events = pre ++ Event.isGridFull true :: post →
      ∀ ev ∈ post, ev.isAddImages = false) ∧
    (∀ pre post c,
      (MainCpp.loop stP capsP).events = pre ++ Event.updateCalibrationTables c :: post →
      ∃ before, pre = before ++ [Event.isGridFull true]) :=
  ⟨(MainC.c_iteration_shape stC capC).full_no_add,
   fun pre post h => shaped_noFeed _ MainC.c_iteration_shape stC capsC pre post h,
   fun pre post c h => shaped_preceded _ MainC.c_iteration_shape stC capsC pre post c h,
   (MainCpp.cpp_iteration_shape stP capP).full_no_add,
   fun pre post h => shaped_noFeed _ MainCpp.cpp_iteration_shape stP capsP pre post h,
   fun pre post c h => shaped_preceded _ MainCpp.cpp_iteration_shape stP capsP pre post c h⟩

/-- Instance of C3 on the one-capture runs in which the grid is already full. -/
theorem feed_stops_when_full_commit_needs_full_witness :
    ((∃ code, (MainC.iteration MainC.State.init
        (MainC.capture MainC.fullFrames true DCCode.DC_SUCCESS)).ret = some code) ∧
      ∀ ev ∈ (MainC.iteration MainC.State.init
        (MainC.capture MainC.fullFrames true DCCode.DC_SUCCESS)).events,
        ev.isAddImages = false) ∧
    (∀ ev ∈ Event.updateCalibrationTables DCCode.DC_SUCCESS :: MainC.commitRunTail,
      ev.isAddImages = false) ∧
    (∃ before, MainC.commitRunScan ++ [Event.isGridFull true] =
      before ++ [Event.isGridFull true]) ∧
    ((∃ code, (MainCpp.iteration (MainCpp.State.init 0 0)
        (MainCpp.capture MainCpp.fullFrames true DCCode.DC_SUCCESS)).ret = some code) ∧
      ∀ ev ∈ (MainCpp.iteration (MainCpp.State.init 0 0)
        (MainCpp.capture MainCpp.fullFrames true DCCode.DC_SUCCESS)).events,
        ev.isAddImages = false) ∧
    (∀ ev ∈ [Event.updateCalibrationTables DCCode.DC_SUCCESS, Event.stop],
      ev.isAddImages = false) ∧
    (∃ before, MainCpp.commitRunScan ++ [Event.isGridFull true] =
      before ++ [Event.isGridFull true]) :=
  have h := feed_stops_when_full_commit_needs_full MainC.State.init
    (MainC.capture MainC.fullFrames true DCCode.DC_SUCCESS) MainC.commitRun
    (MainCpp.State.init 0 0)
    (MainCpp.capture MainCpp.fullFrames true DCCode.DC_SUCCESS) MainCpp.commitRun
  ⟨h.1 (by decide),
   h.2.1 MainC.commitRunScan
     (Event.updateCalibrationTables DCCode.DC_SUCCESS :: MainC.commitRunTail) (by decide),
   h.2.2.1 (MainC.commitRunScan ++ [Event.isGridFull true]) MainC.commitRunTail
     DCCode.DC_SUCCESS (by decide),
   h.2.2.2.1 (by decide),
   h.2.2.2.2.1 MainCpp.commitRunScan
     [Event.updateCalibrationTables DCCode.DC_SUCCESS, Event.stop] (by decide),
   h.2.2.2.2.2 (MainCpp.commitRunScan ++ [Event.isGridFull true]) [Event.stop]
     DCCode.DC_SUCCESS (by decide)⟩

/-- C4: in both front-ends, in every run `UpdateCalibrationTables` is called at
most once, and once it has been called `main` returns without any further wait
for frames, `AddImages` call or `UpdateCalibrationTables` call. -/
theorem commit_at_most_once_then_exit
    (stC : MainC.State) (capsC : List MainC.Capture)
    (stP : MainCpp.State) (capsP : List MainCpp.Capture) :
    ((MainC.loop stC capsC).events.filter Event.isUpdate).length ≤ 1 ∧
    (∀ pre post c,
      (MainC.loop stC capsC).events = pre ++ Event.updateCalibrationTables c :: post →
      (∃ code, (MainC.loop stC capsC).exit = some code) ∧
      ∀ ev ∈ post, ev.isWait = false ∧ ev.isAddImages = false ∧ ev.isUpdate = false) ∧
    ((MainCpp.loop stP capsP).events.filter Event.isUpdate).length ≤ 1 ∧
    (∀ pre post c,
      (MainCpp.loop stP capsP).events = pre ++ Event.updateCalibrationTables c :: post →
      (∃ code, (MainCpp.loop stP capsP).exit = some code) ∧
      ∀ ev ∈ post, ev.isWait = false ∧ ev.isAddImages = false ∧ ev.isUpdate = false) :=
  ⟨shaped_update_once _ MainC.c_iteration_shape stC capsC,
   fun pre post c h => shaped_afterUpdate _ MainC.c_iteration_shape stC capsC pre post c h,
   shaped_update_once _ MainCpp.cpp_iteration_shape stP capsP,
   fun pre post c h => shaped_afterUpdate _ MainCpp.cpp_iteration_shape stP capsP pre post c h⟩

/-- Instance of C4 on the one-capture runs in which the grid is already full. -/
theorem commit_at_most_once_then_exit_witness :
    ((∃ code, (MainC.loop MainC.State.init MainC.commitRun).exit = some code) ∧
      ∀ ev ∈ MainC.commitRunTail,
        ev.isWait = false ∧ ev.isAddImages = false ∧ ev.isUpdate = false) ∧
    ((∃ code, (MainCpp.loop (MainCpp.State.init 0 0) MainCpp.commitRun).exit = some code) ∧
      ∀ ev ∈ [Event.stop],
        ev.isWait = false ∧ ev.isAddImages = false ∧ ev.isUpdate = false) :=
  have h := commit_at_most_once_then_exit MainC.State.init MainC.commitRun
    (MainCpp.State.init 0 0) MainCpp.commitRun
  ⟨h.2.1 (MainC.commitRunScan ++ [Event.isGridFull true]) MainC.commitRunTail
     DCCode.DC_SUCCESS (by decide),
   h.2.2.2 (MainCpp.commitRunScan ++ [Event.isGridFull true]) [Event.stop]
     DCCode.DC_SUCCESS (by decide)⟩

/-! ### Exit status after the commit -/

theorem MainC.c_iteration_update_ret (st : MainC.State) (cap : MainC.Capture) (ev : Event)
    (hev : ev ∈ (MainC.iteration st cap).events) (hu : ev.isUpdate = true) :
    (MainC.iteration st cap).ret = some 0 := by
  have hq : ∀ (l : List Event), (∀ x ∈ l, x.isEngine = false) → ev ∈ l → False := by
    intro l hl hmem
    rw [(Event.not_engine (hl ev hmem)).1] at hu
    cases hu
  unfold MainC.iteration at hev ⊢
  simp only at hev ⊢
  split_ifs at hev ⊢ with h1 h2
  · exact (hq _ (quiet_wait_cons _ (MainC.returnCleanExit_quiet 1 [] _ (by simp))) hev).elim
  · exact (hq _ (quiet_wait_cons _ (MainC.returnCleanExit_quiet 1 [] _ (by simp))) hev).elim
  · generalize hs1 : ({ MainC.Scan.start st (st.e || cap.waitErr) with
        e := (MainC.Scan.start st (st.e || cap.waitErr)).e || cap.countErr } : MainC.Scan) = s1
      at hev ⊢
    have hscan := MainC.c_frameLoop_quiet 0 s1 cap.frames
    split at hev
    · exact (hq _ (quiet_wait_cons _ hscan) hev).elim
    · rename_i hnone
      simp only [hnone]
      simp only [List.cons_append, List.mem_cons, List.mem_append] at hev
      rcases hev with rfl | hev | hev
      · cases hu
      · exact (hq _ hscan hev).elim
      · unfold MainC.feedOrCommit at hev ⊢
        simp only at hev ⊢
        split_ifs at hev ⊢ with h3 h4
        · simp only [List.cons_append, List.nil_append, List.mem_cons] at hev
          rcases hev with rfl | rfl | hev
          · cases hu
          · cases hu
          · exact (hq _ (fun x hx => (MainC.destroy_quiet _ x hx).1) hev).elim
        · rfl
        · exact (hq _ (fun x hx => (MainC.destroy_quiet _ x hx).1) hev).elim

theorem MainCpp.cpp_iteration_update_ret (st : MainCpp.State) (cap : MainCpp.Capture) (ev : Event)
    (hev : ev ∈ (MainCpp.iteration st cap).events) (hu : ev.isUpdate = true) :
    (MainCpp.iteration st cap).ret = some 1 := by
  have hq : ∀ (l : List Event), (∀ x ∈ l, x.isEngine = false) → ev ∈ l → False := by
    intro l hl hmem
    rw [(Event.not_engine (hl ev hmem)).1] at hu
    cases hu
  unfold MainCpp.iteration at hev ⊢
  simp only at hev ⊢
  split_ifs at hev ⊢ with h1 h2
  · simp only [MainCpp.afterLoop, List.nil_append, List.mem_singleton] at hev
    subst hev
    cases hu
  · simp only [List.mem_singleton] at hev
    subst hev
    cases hu
  · have hscan := MainCpp.cpp_frameLoop_quiet (MainCpp.Scan.start st) cap.frames
    split at hev
    · exact (hq _ (quiet_wait_cons _ hscan) hev).elim
    · rename_i hnone
      simp only [hnone]
      simp only [List.cons_append, List.mem_cons, List.mem_append] at hev
      rcases hev with rfl | hev | hev
      · cases hu
      · exact (hq _ hscan hev).elim
      · unfold MainCpp.feedOrCommit at hev ⊢
        simp only at hev ⊢
        split_ifs at hev ⊢ with h3 h4
        · simp only [MainCpp.afterLoop, List.nil_append, List.mem_singleton] at hev
          subst hev
          cases hu
        · simp only [List.mem_cons, List.mem_singleton, List.not_mem_nil, or_false] at hev
          rcases hev with rfl | rfl <;> cases hu
        · rfl

theorem runLoop_exit_code {σ ι : Type} (p : Event → Bool) (k : Int) (body : σ → ι → Step σ)
    (hb : ∀ st inp, ∀ ev ∈ (body st inp).events, p ev = true → (body st inp).ret = some k)
    (st : σ) (inps : List ι) (ev : Event) (hev : ev ∈ (runLoop body st inps).events)
    (hp : p ev = true) : (runLoop body st inps).exit = some k := by
  induction inps generalizing st with
  | nil => simp [runLoop] at hev
  | cons inp rest ih =>
    unfold runLoop at hev ⊢
    cases hr : (body st inp).ret with
    | some code =>
      simp only [hr] at hev ⊢
      have := hb st inp ev hev hp
      rw [hr] at this
      exact this
    | none =>
      simp only [hr, List.mem_append] at hev ⊢
      rcases hev with hev | hev
      · have := hb st inp ev hev hp
        rw [hr] at this
        cases this
      · exact ih _ hev

/-- Whatever `UpdateCalibrationTables` returns, a run of main.c that called it
exits with status 0 and a run of main.cpp that called it exits with status 1. -/
theorem exit_status_after_commit_is_constant
    (stC : MainC.State) (capsC : List MainC.Capture)
    (stP : MainCpp.State) (capsP : List MainCpp.Capture) (c : DCCode) :
    (Event.updateCalibrationTables c ∈ (MainC.loop stC capsC).events →
      (MainC.loop stC capsC).exit = some 0) ∧
    (Event.updateCalibrationTables c ∈ (MainCpp.loop stP capsP).events →
      (MainCpp.loop stP capsP).exit = some 1) :=
  ⟨fun h => runLoop_exit_code Event.isUpdate 0 MainC.iteration
      MainC.c_iteration_update_ret stC capsC _ h rfl,
   fun h => runLoop_exit_code Event.isUpdate 1 MainCpp.iteration
      MainCpp.cpp_iteration_update_ret stP capsP _ h rfl⟩

/-- C1 (evaluation at the failing inputs): main.c, grid full and
`UpdateCalibrationTables` returning `DC_ERROR_FAIL`: the process exits with
status 0; main.cpp, grid full and `UpdateCalibrationTables` returning
`DC_SUCCESS`: the process exits with status 1. -/
theorem commit_exit_status_wrong :
    Event.updateCalibrationTables DCCode.DC_ERROR_FAIL ∈
      (MainC.loop MainC.State.init
        [MainC.capture MainC.fullFrames true DCCode.DC_ERROR_FAIL]).events ∧
    (MainC.loop MainC.State.init
        [MainC.capture MainC.fullFrames true DCCode.DC_ERROR_FAIL]).exit = some 0 ∧
    Event.updateCalibrationTables DCCode.DC_SUCCESS ∈
      (MainCpp.loop (MainCpp.State.init 0 0)
        [MainCpp.capture MainCpp.fullFrames true DCCode.DC_SUCCESS]).events ∧
    (MainCpp.loop (MainCpp.State.init 0 0)
        [MainCpp.capture MainCpp.fullFrames true DCCode.DC_SUCCESS]).exit = some 1 := by
  decide

/-- C5 (evaluation at the failing input): main.c on a capture whose only frame
is a depth frame with handle 7: the handle is extracted once, pushed onto
`to_release` twice, and `rs2_release_frame` is called on it twice when the
iteration ends. -/
theorem depth_handle_released_twice :
    (MainC.frameLoop 0 (MainC.Scan.start MainC.State.init false)
        [MainC.depthFrame 7 70]).state.releaseLater.to_release = [7, 7] ∧
    (MainC.iteration MainC.State.init
        (MainC.capture [MainC.depthFrame 7 70] false DCCode.DC_SUCCESS)).events =
      [Event.waitForFrames, Event.extractFrame 7, Event.memcpy Buffer.depth 70,
       Event.releaseFrame 7, Event.releaseFrame 7] := by
  decide

/-- C6 (evaluation at the failing input): main.c on the complete capture with
capture handle 100 and sub-frame handles 1, 2, 3, 4: when the frame loop is
done `releaseLater.frames` is still `NULL`, and `rs2_release_frame` is called
on the sub-frame handles only, never on the capture handle 100.  The same
holds on the early-return path taken when `rs2_embedded_frames_count` fails:
nothing is released at all. -/
theorem capture_handle_not_released :
    (MainC.capture MainC.fullFrames false DCCode.DC_SUCCESS).handle = 100 ∧
    (MainC.frameLoop 0 (MainC.Scan.start MainC.State.init false)
        MainC.fullFrames).state.releaseLater.frames = none ∧
    (MainC.iteration MainC.State.init
        (MainC.capture MainC.fullFrames false DCCode.DC_SUCCESS)).events =
      [Event.waitForFrames, Event.extractFrame 1, Event.memcpy Buffer.depth 11,
       Event.extractFrame 2, Event.extractFrame 3, Event.memcpy Buffer.irLeft 13,
       Event.extractFrame 4, Event.memcpy Buffer.irRight 14,
       Event.isGridFull false, Event.addImages 13 14 11 5 DCCode.DC_SUCCESS,
       Event.releaseFrame 1, Event.releaseFrame 1, Event.releaseFrame 2,
       Event.releaseFrame 3, Event.releaseFrame 4] ∧
    Event.releaseFrame 100 ∉ (MainC.iteration MainC.State.init
        (MainC.capture MainC.fullFrames false DCCode.DC_SUCCESS)).events ∧
    (MainC.iteration MainC.State.init
        ⟨100, false, true, MainC.fullFrames, 5000, false, DCCode.DC_SUCCESS,
          DCCode.DC_SUCCESS⟩).events =
      [Event.waitForFrames, Event.cleanExit 1] := by
  decide

/-! ### What the destructor of `ReleaseLater` releases in main.c -/

theorem MainC.mem_destroy (r : MainC.ReleaseLater) (h : Nat) :
    Event.releaseFrame h ∈ r.destroy ↔ h ∈ r.released := by
  simp [MainC.ReleaseLater.destroy]

theorem MainC.frameBody_release (f : Nat) (s : MainC.Scan) (fr : MainC.Frame) :
    (MainC.frameBody f s fr).state.releaseLater.frames = s.releaseLater.frames ∧
    (∀ h ∈ (MainC.frameBody f s fr).state.releaseLater.to_release,
      h ∈ s.releaseLater.to_release ∨ h = fr.handle) ∧
    ((MainC.frameBody f s fr).ret = none →
      ∀ h, Event.releaseFrame h ∉ (MainC.frameBody f s fr).events) ∧
    (∀ h, Event.releaseFrame h ∈ (MainC.frameBody f s fr).events →
      h ∈ (MainC.frameBody f s fr).state.releaseLater.released) := by
  unfold MainC.frameBody
  simp only
  split_ifs
  all_goals simp [MainC.returnCleanExit, MainC.mem_destroy, MainC.ReleaseLater.released]
  all_goals tauto

theorem MainC.frameLoop_release (f : Nat) (s : MainC.Scan) (frames : List MainC.Frame) :
    (MainC.frameLoop f s frames).state.releaseLater.frames = s.releaseLater.frames ∧
    (∀ h ∈ (MainC.frameLoop f s frames).state.releaseLater.to_release,
      h ∈ s.releaseLater.to_release ∨ ∃ fr ∈ frames, fr.handle = h) ∧
    ((MainC.frameLoop f s frames).ret = none →
      ∀ h, Event.releaseFrame h ∉ (MainC.frameLoop f s frames).events) ∧
    (∀ h, Event.releaseFrame h ∈ (MainC.frameLoop f s frames).events →
      h ∈ (MainC.frameLoop f s frames).state.releaseLater.released) := by
  induction frames generalizing f s with
  | nil => simp [MainC.frameLoop]
  | cons fr rest ih =>
    obtain ⟨b1, b2, b3, b4⟩ := MainC.frameBody_release f s fr
    unfold MainC.frameLoop
    simp only
    cases hr : (MainC.frameBody f s fr).ret with
    | some code =>
      refine ⟨b1, ?_, ?_, b4⟩
      · intro h hh
        rcases b2 h hh with h1 | h1
        · exact Or.inl h1
        · exact Or.inr ⟨fr, by simp, h1.symm⟩
      · intro hnone
        cases hnone
    | none =>
      obtain ⟨i1, i2, i3, i4⟩ := ih (f + 1) (MainC.frameBody f s fr).state
      refine ⟨i1.trans b1, ?_, ?_, ?_⟩
      · intro h hh
        rcases i2 h hh with h1 | ⟨g, hg, hgh⟩
        · rcases b2 h h1 with h2 | h2
          · exact Or.inl h2
          · exact Or.inr ⟨fr, by simp, h2.symm⟩
        · exact Or.inr ⟨g, by simp [hg], hgh⟩
      · intro hnone h hmem
        simp only [List.mem_append] at hmem
        rcases hmem with hmem | hmem
        · exact b3 hr h hmem
        · exact i3 hnone h hmem
      · intro h hmem
        simp only [List.mem_append] at hmem
        rcases hmem with hmem | hmem
        · exact (b3 hr h hmem).elim
        · exact i4 h hmem

/-- In main.c every handle passed to `rs2_release_frame` in an iteration is the
handle of an embedded frame of the capture; the handle of the capture itself is
never passed on its own account, on any path. -/
theorem MainC.released_are_embedded_frames (st : MainC.State) (cap : MainC.Capture) (h : Nat)
    (hrel : Event.releaseFrame h ∈ (MainC.iteration st cap).events) :
    ∃ fr ∈ cap.frames, fr.handle = h := by
  have key : ∀ s1 : MainC.Scan, s1.releaseLater = ⟨[], none⟩ →
      h ∈ (MainC.frameLoop 0 s1 cap.frames).state.releaseLater.released →
      ∃ fr ∈ cap.frames, fr.handle = h := by
    intro s1 hs1 hmem
    obtain ⟨i1, i2, _, _⟩ := MainC.frameLoop_release 0 s1 cap.frames
    simp only [MainC.ReleaseLater.released, i1, hs1, List.append_nil] at hmem
    rcases i2 h hmem with h1 | h1
    · simp [hs1] at h1
    · exact h1
  unfold MainC.iteration at hrel
  simp only at hrel
  split_ifs at hrel with h1 h2
  · simp [MainC.Scan.start, MainC.ReleaseLater.destroy, MainC.ReleaseLater.released] at hrel
  · simp [MainC.Scan.start, MainC.ReleaseLater.destroy, MainC.ReleaseLater.released] at hrel
  · generalize hs1 : ({ MainC.Scan.start st (st.e || cap.waitErr) with
        e := (MainC.Scan.start st (st.e || cap.waitErr)).e || cap.countErr } : MainC.Scan) = s1
      at hrel
    have hrl : s1.releaseLater = ⟨[], none⟩ := by
      rw [← hs1]
      rfl
    obtain ⟨_, _, _, i4⟩ := MainC.frameLoop_release 0 s1 cap.frames
    split at hrel
    · simp only [List.mem_cons] at hrel
      rcases hrel with hrel | hrel
      · cases hrel
      · exact key s1 hrl (i4 h hrel)
    · simp only [List.cons_append, List.mem_cons, List.mem_append] at hrel
      rcases hrel with hrel | hrel | hrel
      · cases hrel
      · exact key s1 hrl (i4 h hrel)
      · apply key s1 hrl
        unfold MainC.feedOrCommit at hrel
        simp only at hrel
        split_ifs at hrel <;>
          simpa [MainC.mem_destroy] using hrel

/-- C7 (evaluation at the failing input): main.c on the capture
depth, infrared (data 13), infrared (data 14): the first infrared frame, at
index 1, is copied into the right buffer and the second, at index 2, into the
left buffer, and `AddImages` receives them swapped.  On the same frames
main.cpp copies the first infrared frame into the left buffer and the second
into the right one. -/
theorem c_infrared_assigned_by_frame_index :
    (MainC.iteration MainC.State.init
        (MainC.capture [MainC.depthFrame 1 11, MainC.irFrame 3 13, MainC.irFrame 4 14]
          false DCCode.DC_SUCCESS)).events =
      [Event.waitForFrames, Event.extractFrame 1, Event.memcpy Buffer.depth 11,
       Event.extractFrame 3, Event.memcpy Buffer.irRight 13,
       Event.extractFrame 4, Event.memcpy Buffer.irLeft 14,
       Event.isGridFull false, Event.addImages 14 13 11 5 DCCode.DC_SUCCESS,
       Event.releaseFrame 1, Event.releaseFrame 1, Event.releaseFrame 3,
       Event.releaseFrame 4] ∧
    (MainCpp.frameLoop (MainCpp.Scan.start (MainCpp.State.init 0 0))
        [MainCpp.depthFrame 11, MainCpp.irFrame 13, MainCpp.irFrame 14]).events =
      [Event.memcpy Buffer.depth 11, Event.memcpy Buffer.irLeft 13,
       Event.memcpy Buffer.irRight 14] := by
  decide

/-! ### Which buffers a fed capture has written -/

theorem MainCpp.frameBody_flags (s : MainCpp.Scan) (f : MainCpp.Frame) :
    ((MainCpp.frameBody s f).state.got_depth = true → s.got_depth = true ∨
      Event.memcpy Buffer.depth f.data ∈ (MainCpp.frameBody s f).events) ∧
    ((MainCpp.frameBody s f).state.got_ir_left = true → s.got_ir_left = true ∨
      Event.memcpy Buffer.irLeft f.data ∈ (MainCpp.frameBody s f).events) ∧
    ((MainCpp.frameBody s f).state.got_ir_right = true → s.got_ir_right = true ∨
      Event.memcpy Buffer.irRight f.data ∈ (MainCpp.frameBody s f).events) ∧
    ((MainCpp.frameBody s f).state.got_color = true → s.got_color = true ∨
      Event.memcpy Buffer.color f.data ∈ (MainCpp.frameBody s f).events) := by
  unfold MainCpp.frameBody
  simp only
  split_ifs <;> simp

theorem MainCpp.frameLoop_flags (s : MainCpp.Scan) (frames : List MainCpp.Frame) :
    MainCpp.FlagsBacked s (MainCpp.frameLoop s frames).state frames
      (MainCpp.frameLoop s frames).events := by
  induction frames generalizing s with
  | nil => simp [MainCpp.frameLoop, MainCpp.FlagsBacked]
  | cons f rest ih =>
    have hb := MainCpp.frameBody_flags s f
    unfold MainCpp.frameLoop
    cases hr : (MainCpp.frameBody s f).ret with
    | some code =>
      simp only [MainCpp.FlagsBacked, List.mem_cons, exists_eq_or_imp] at hb ⊢
      refine ⟨fun h => ?_, fun h => ?_, fun h => ?_, fun h => ?_⟩
      · rcases hb.1 h with h1 | h1
        · exact Or.inl h1
        · exact Or.inr (Or.inl h1)
      · rcases hb.2.1 h with h1 | h1
        · exact Or.inl h1
        · exact Or.inr (Or.inl h1)
      · rcases hb.2.2.1 h with h1 | h1
        · exact Or.inl h1
        · exact Or.inr (Or.inl h1)
      · rcases hb.2.2.2 h with h1 | h1
        · exact Or.inl h1
        · exact Or.inr (Or.inl h1)
    | none =>
      have hi := ih (MainCpp.frameBody s f).state
      simp only [MainCpp.FlagsBacked, List.mem_cons, exists_eq_or_imp, List.mem_append]
        at hb hi ⊢
      refine ⟨fun h => ?_, fun h => ?_, fun h => ?_, fun h => ?_⟩
      · rcases hi.1 h with h1 | ⟨g, hg, hmem⟩
        · rcases hb.1 h1 with h2 | h2
          · exact Or.inl h2
          · exact Or.inr (Or.inl (Or.inl h2))
        · exact Or.inr (Or.inr ⟨g, hg, Or.inr hmem⟩)
      · rcases hi.2.1 h with h1 | ⟨g, hg, hmem⟩
        · rcases hb.2.1 h1 with h2 | h2
          · exact Or.inl h2
          · exact Or.inr (Or.inl (Or.inl h2))
        · exact Or.inr (Or.inr ⟨g, hg, Or.inr hmem⟩)
      · rcases hi.2.2.1 h with h1 | ⟨g, hg, hmem⟩
        · rcases hb.2.2.1 h1 with h2 | h2
          · exact Or.inl h2
          · exact Or.inr (Or.inl (Or.inl h2))
        · exact Or.inr (Or.inr ⟨g, hg, Or.inr hmem⟩)
      · rcases hi.2.2.2 h with h1 | ⟨g, hg, hmem⟩
        · rcases hb.2.2.2 h1 with h2 | h2
          · exact Or.inl h2
          · exact Or.inr (Or.inl (Or.inl h2))
        · exact Or.inr (Or.inr ⟨g, hg, Or.inr hmem⟩)

theorem quiet_no_add (l : List Event) (hl : ∀ x ∈ l, x.isEngine = false) :
    ¬ ∃ ev ∈ l, ev.isAddImages = true := by
  rintro ⟨ev, hev, hadd⟩
  rw [(Event.not_engine (hl ev hev)).2.1] at hadd
  cases hadd

theorem MainCpp.feed_inv (st : MainCpp.State) (cap : MainCpp.Capture)
    (h : ∃ ev ∈ (MainCpp.iteration st cap).events, ev.isAddImages = true) :
    (MainCpp.frameLoop (MainCpp.Scan.start st) cap.frames).state.got_depth = true ∧
    (MainCpp.frameLoop (MainCpp.Scan.start st) cap.frames).state.got_ir_left = true ∧
    (MainCpp.frameLoop (MainCpp.Scan.start st) cap.frames).state.got_ir_right = true ∧
    (MainCpp.frameLoop (MainCpp.Scan.start st) cap.frames).state.got_color = true ∧
    ∀ ev ∈ (MainCpp.frameLoop (MainCpp.Scan.start st) cap.frames).events,
      ev ∈ (MainCpp.iteration st cap).events := by
  have hscan := MainCpp.cpp_frameLoop_quiet (MainCpp.Scan.start st) cap.frames
  unfold MainCpp.iteration at h ⊢
  simp only at h ⊢
  split_ifs at h ⊢ with h1 h2
  · exact (quiet_no_add _ (by simp [MainCpp.afterLoop, Event.isEngine]) h).elim
  · exact (quiet_no_add _ (by simp [Event.isEngine]) h).elim
  · split at h
    · exact (quiet_no_add _ (quiet_wait_cons _ hscan) h).elim
    · rename_i hnone
      simp only [hnone]
      unfold MainCpp.feedOrCommit at h
      simp only at h
      split_ifs at h with h3 h4
      · exact (quiet_no_add _ (by
          intro x hx
          simp only [MainCpp.afterLoop, List.nil_append, List.cons_append, List.mem_cons,
            List.mem_append, List.mem_singleton, List.not_mem_nil, or_false] at hx
          rcases hx with rfl | hx | rfl
          · rfl
          · exact hscan x hx
          · rfl) h).elim
      · simp only [Bool.or_eq_true, Bool.not_eq_true', not_or, Bool.not_eq_false] at h3
        refine ⟨h3.1.1.2, h3.1.2, h3.2, h3.1.1.1, ?_⟩
        intro ev hev
        simp [hev]
      · obtain ⟨ev, hev, hadd⟩ := h
        simp only [List.cons_append, List.mem_cons, List.mem_append, List.mem_singleton,
          List.not_mem_nil, or_false] at hev
        rcases hev with rfl | hev | rfl | rfl | rfl
        · cases hadd
        · rw [(Event.not_engine (hscan ev hev)).2.1] at hadd
          cases hadd
        · cases hadd
        · cases hadd
        · cases hadd

theorem MainC.frameBody_irCount (f : Nat) (s : MainC.Scan) (fr : MainC.Frame) :
    (MainC.frameBody f s fr).state.got_ir_frames =
      s.got_ir_frames + ((MainC.frameBody f s fr).events.filter Event.isIrCopy).length := by
  have hd : ∀ r : MainC.ReleaseLater, r.destroy.filter Event.isIrCopy = [] := by
    intro r
    simp only [MainC.ReleaseLater.destroy, List.filter_eq_nil_iff, List.mem_map]
    rintro ev ⟨h, _, rfl⟩
    simp [Event.isIrCopy]
  unfold MainC.frameBody
  simp only
  split_ifs <;> simp [MainC.returnCleanExit, List.filter, Event.isIrCopy, hd]

theorem MainC.frameLoop_irCount (f : Nat) (s : MainC.Scan) (frames : List MainC.Frame) :
    (MainC.frameLoop f s frames).state.got_ir_frames =
      s.got_ir_frames + ((MainC.frameLoop f s frames).events.filter Event.isIrCopy).length := by
  induction frames generalizing f s with
  | nil => simp [MainC.frameLoop]
  | cons fr rest ih =>
    have hb := MainC.frameBody_irCount f s fr
    unfold MainC.frameLoop
    simp only
    cases hr : (MainC.frameBody f s fr).ret with
    | some code => exact hb
    | none =>
      simp only [List.filter_append, List.length_append]
      rw [ih, hb]
      omega

theorem MainC.destroy_irCopy (r : MainC.ReleaseLater) :
    r.destroy.filter Event.isIrCopy = [] := by
  simp only [MainC.ReleaseLater.destroy, List.filter_eq_nil_iff, List.mem_map]
  rintro ev ⟨h, _, rfl⟩
  simp [Event.isIrCopy]

theorem MainC.feed_irCount (st : MainC.State) (cap : MainC.Capture)
    (h : ∃ ev ∈ (MainC.iteration st cap).events, ev.isAddImages = true) :
    ((MainC.iteration st cap).events.filter Event.isIrCopy).length = 2 := by
  unfold MainC.iteration at h ⊢
  simp only at h ⊢
  split_ifs at h ⊢ with h1 h2
  · exact (quiet_no_add _
      (quiet_wait_cons _ (MainC.returnCleanExit_quiet 1 [] _ (by simp))) h).elim
  · exact (quiet_no_add _
      (quiet_wait_cons _ (MainC.returnCleanExit_quiet 1 [] _ (by simp))) h).elim
  · generalize hs1 : ({ MainC.Scan.start st (st.e || cap.waitErr) with
        e := (MainC.Scan.start st (st.e || cap.waitErr)).e || cap.countErr } : MainC.Scan) = s1
      at h ⊢
    have hscan := MainC.c_frameLoop_quiet 0 s1 cap.frames
    have hcount := MainC.frameLoop_irCount 0 s1 cap.frames
    have hzero : s1.got_ir_frames = 0 := by
      rw [← hs1]
      rfl
    split at h
    · exact (quiet_no_add _ (quiet_wait_cons _ hscan) h).elim
    · rename_i hnone
      simp only [hnone]
      unfold MainC.feedOrCommit at h ⊢
      simp only at h ⊢
      split_ifs at h ⊢ with h3 h4
      · simp only [List.cons_append, List.nil_append, List.filter_cons, List.filter_append,
          Event.isIrCopy, MainC.destroy_irCopy, List.append_nil, Bool.false_eq_true, if_false]
        omega
      · obtain ⟨ev, hev, hadd⟩ := h
        simp only [List.cons_append, List.mem_cons, List.mem_append, List.nil_append] at hev
        rcases hev with rfl | hev | rfl | rfl | rfl | hev
        · cases hadd
        · rw [(Event.not_engine (hscan ev hev)).2.1] at hadd
          cases hadd
        · cases hadd
        · cases hadd
        · cases hadd
        · rw [(Event.not_engine (MainC.destroy_quiet _ ev hev).1).2.1] at hadd
          cases hadd
      · exact (quiet_no_add _ (by
          intro x hx
          simp only [List.cons_append, List.mem_cons, List.mem_append] at hx
          rcases hx with rfl | hx | hx
          · rfl
          · exact hscan x hx
          · exact (MainC.destroy_quiet _ x hx).1) h).elim

/-- C2, as amended: in main.cpp `AddImages` is called in an iteration only if
the depth, left-IR, right-IR and color buffers were each written from a frame
of that capture; in main.c it is called only if exactly two copies into the
infrared buffers were made from that capture (the depth buffer is not
required). -/
theorem feed_requires_written_buffers
    (stP : MainCpp.State) (capP : MainCpp.Capture)
    (stC : MainC.State) (capC : MainC.Capture) :
    ((∃ ev ∈ (MainCpp.iteration stP capP).events, ev.isAddImages = true) →
      (∃ f ∈ capP.frames,
        Event.memcpy Buffer.depth f.data ∈ (MainCpp.iteration stP capP).events) ∧
      (∃ f ∈ capP.frames,
        Event.memcpy Buffer.irLeft f.data ∈ (MainCpp.iteration stP capP).events) ∧
      (∃ f ∈ capP.frames,
        Event.memcpy Buffer.irRight f.data ∈ (MainCpp.iteration stP capP).events) ∧
      (∃ f ∈ capP.frames,
        Event.memcpy Buffer.color f.data ∈ (MainCpp.iteration stP capP).events)) ∧
    ((∃ ev ∈ (MainC.iteration stC capC).events, ev.isAddImages = true) →
      ((MainC.iteration stC capC).events.filter Event.isIrCopy).length = 2) := by
  refine ⟨fun h => ?_, MainC.feed_irCount stC capC⟩
  obtain ⟨hd, hl, hr, hc, hsub⟩ := MainCpp.feed_inv stP capP h
  have hf := MainCpp.frameLoop_flags (MainCpp.Scan.start stP) capP.frames
  have hstart : (MainCpp.Scan.start stP).got_depth = false ∧
      (MainCpp.Scan.start stP).got_ir_left = false ∧
      (MainCpp.Scan.start stP).got_ir_right = false ∧
      (MainCpp.Scan.start stP).got_color = false := ⟨rfl, rfl, rfl, rfl⟩
  refine ⟨?_, ?_, ?_, ?_⟩
  · rcases hf.1 hd with h0 | ⟨f, hfm, hev⟩
    · rw [hstart.1] at h0
      cases h0
    · exact ⟨f, hfm, hsub _ hev⟩
  · rcases hf.2.1 hl with h0 | ⟨f, hfm, hev⟩
    · rw [hstart.2.1] at h0
      cases h0
    · exact ⟨f, hfm, hsub _ hev⟩
  · rcases hf.2.2.1 hr with h0 | ⟨f, hfm, hev⟩
    · rw [hstart.2.2.1] at h0
      cases h0
    · exact ⟨f, hfm, hsub _ hev⟩
  · rcases hf.2.2.2 hc with h0 | ⟨f, hfm, hev⟩
    · rw [hstart.2.2.2] at h0
      cases h0
    · exact ⟨f, hfm, hsub _ hev⟩

/-- Instance of the amended C2 on the complete capture with the grid not full. -/
theorem feed_requires_written_buffers_witness :
    ((∃ f ∈ MainCpp.fullFrames, Event.memcpy Buffer.depth f.data ∈
        (MainCpp.iteration (MainCpp.State.init 0 0)
          (MainCpp.capture MainCpp.fullFrames false DCCode.DC_SUCCESS)).events) ∧
      (∃ f ∈ MainCpp.fullFrames, Event.memcpy Buffer.irLeft f.data ∈
        (MainCpp.iteration (MainCpp.State.init 0 0)
          (MainCpp.capture MainCpp.fullFrames false DCCode.DC_SUCCESS)).events) ∧
      (∃ f ∈ MainCpp.fullFrames, Event.memcpy Buffer.irRight f.data ∈
        (MainCpp.iteration (MainCpp.State.init 0 0)
          (MainCpp.capture MainCpp.fullFrames false DCCode.DC_SUCCESS)).events) ∧
      (∃ f ∈ MainCpp.fullFrames, Event.memcpy Buffer.color f.data ∈
        (MainCpp.iteration (MainCpp.State.init 0 0)
          (MainCpp.capture MainCpp.fullFrames false DCCode.DC_SUCCESS)).events)) ∧
    ((MainC.iteration MainC.State.init
        (MainC.capture MainC.fullFrames false DCCode.DC_SUCCESS)).events.filter
          Event.isIrCopy).length = 2 :=
  have h := feed_requires_written_buffers (MainCpp.State.init 0 0)
    (MainCpp.capture MainCpp.fullFrames false DCCode.DC_SUCCESS) MainC.State.init
    (MainC.capture MainC.fullFrames false DCCode.DC_SUCCESS)
  ⟨h.1 ⟨Event.addImages 13 14 11 5000 DCCode.DC_SUCCESS, by decide, rfl⟩,
   h.2 ⟨Event.addImages 13 14 11 5 DCCode.DC_SUCCESS, by decide, rfl⟩⟩

/-- C2 (counterexample): main.c on a capture that holds two infrared frames
and no depth frame calls `AddImages`, although nothing was copied into the
depth buffer or into the left infrared buffer in that iteration; the engine
receives the zeroed depth and left buffers. -/
theorem c_feeds_without_depth_or_left :
    (MainC.iteration MainC.State.init
        (MainC.capture [MainC.irFrame 3 13, MainC.irFrame 4 14] false
          DCCode.DC_SUCCESS)).events =
      [Event.waitForFrames, Event.extractFrame 3, Event.memcpy Buffer.irRight 13,
       Event.extractFrame 4, Event.memcpy Buffer.irRight 14,
       Event.isGridFull false, Event.addImages 0 14 0 5 DCCode.DC_SUCCESS,
       Event.releaseFrame 3, Event.releaseFrame 4] := by
  decide

/-! ### An incomplete capture -/

theorem MainC.iteration_starts_with_wait (st : MainC.State) (cap : MainC.Capture) :
    ∃ tl, (MainC.iteration st cap).events = Event.waitForFrames :: tl := by
  unfold MainC.iteration
  simp only
  split_ifs
  · exact ⟨_, rfl⟩
  · exact ⟨_, rfl⟩
  · split
    · exact ⟨_, rfl⟩
    · exact ⟨_, rfl⟩

theorem MainC.loop_starts_with_wait (st : MainC.State) (cap : MainC.Capture)
    (rest : List MainC.Capture) :
    ∃ tl, (MainC.loop st (cap :: rest)).events = Event.waitForFrames :: tl := by
  obtain ⟨tl, htl⟩ := MainC.iteration_starts_with_wait st cap
  unfold MainC.loop runLoop
  cases hr : (MainC.iteration st cap).ret with
  | some code => exact ⟨tl, by simp [htl]⟩
  | none =>
    exact ⟨tl ++ (runLoop MainC.iteration (MainC.iteration st cap).state rest).events,
      by simp [htl]⟩

theorem MainC.iteration_of_ok (st : MainC.State) (cap : MainC.Capture)
    (he : st.e = false) (hw : cap.waitErr = false) (hc : cap.countErr = false) :
    MainC.iteration st cap =
      match (MainC.frameLoop 0 (MainC.Scan.start st false) cap.frames).ret with
      | some code =>
        ⟨Event.waitForFrames :: (MainC.frameLoop 0 (MainC.Scan.start st false) cap.frames).events,
          (MainC.frameLoop 0 (MainC.Scan.start st false) cap.frames).state.toState, some code⟩
      | none =>
        ⟨Event.waitForFrames :: (MainC.frameLoop 0 (MainC.Scan.start st false) cap.frames).events ++
            (MainC.feedOrCommit cap
              (MainC.frameLoop 0 (MainC.Scan.start st false) cap.frames).state).events,
          (MainC.feedOrCommit cap
              (MainC.frameLoop 0 (MainC.Scan.start st false) cap.frames).state).state,
          (MainC.feedOrCommit cap
              (MainC.frameLoop 0 (MainC.Scan.start st false) cap.frames).state).ret⟩ := by
  obtain ⟨e, d, l, r⟩ := st
  obtain ⟨h, we, ce, frames, clock, gf, ar, ur⟩ := cap
  simp only at he hw hc
  subst he hw hc
  rfl

theorem MainC.incomplete_continues (st : MainC.State) (cap next : MainC.Capture)
    (rest : List MainC.Capture)
    (he : st.e = false) (hw : cap.waitErr = false) (hc : cap.countErr = false)
    (hscan : (MainC.frameLoop 0 (MainC.Scan.start st false) cap.frames).ret = none)
    (hinc : (MainC.frameLoop 0 (MainC.Scan.start st false) cap.frames).state.got_ir_frames ≠ 2) :
    (∀ ev ∈ (MainC.iteration st cap).events, ev.isAddImages = false ∧ ev.isUpdate = false) ∧
    (MainC.iteration st cap).ret = none ∧
    ∃ tl, (MainC.loop st (cap :: next :: rest)).events =
      (MainC.iteration st cap).events ++ Event.waitForFrames :: tl := by
  have hq := MainC.c_frameLoop_quiet 0 (MainC.Scan.start st false) cap.frames
  have hit : MainC.iteration st cap =
      ⟨Event.waitForFrames :: (MainC.frameLoop 0 (MainC.Scan.start st false) cap.frames).events ++
          (MainC.frameLoop 0 (MainC.Scan.start st false)
            cap.frames).state.releaseLater.destroy,
        (MainC.frameLoop 0 (MainC.Scan.start st false) cap.frames).state.toState, none⟩ := by
    rw [MainC.iteration_of_ok st cap he hw hc]
    simp only [hscan, MainC.feedOrCommit, hinc, if_false]
  have hret : (MainC.iteration st cap).ret = none := by rw [hit]
  refine ⟨?_, hret, ?_⟩
  · intro ev hev
    rw [hit] at hev
    simp only [List.cons_append, List.mem_cons, List.mem_append] at hev
    rcases hev with rfl | hev | hev
    · exact ⟨rfl, rfl⟩
    · exact ⟨(Event.not_engine (hq ev hev)).2.1, (Event.not_engine (hq ev hev)).1⟩
    · have := (MainC.destroy_quiet _ ev hev).1
      exact ⟨(Event.not_engine this).2.1, (Event.not_engine this).1⟩
  · obtain ⟨tl, htl⟩ := MainC.loop_starts_with_wait (MainC.iteration st cap).state next rest
    refine ⟨tl, ?_⟩
    have : (MainC.loop st (cap :: next :: rest)).events =
        (MainC.iteration st cap).events ++
          (MainC.loop (MainC.iteration st cap).state (next :: rest)).events := by
      conv_lhs => unfold MainC.loop runLoop
      simp only [hret]
      rfl
    rw [this, htl]

theorem MainCpp.incomplete_breaks (st : MainCpp.State) (cap : MainCpp.Capture)
    (rest : List MainCpp.Capture)
    (hs : cap.sigint = false) (hw : cap.waitThrows = false)
    (hscan : (MainCpp.frameLoop (MainCpp.Scan.start st) cap.frames).ret = none)
    (hinc : (!(MainCpp.frameLoop (MainCpp.Scan.start st) cap.frames).state.got_color ||
        !(MainCpp.frameLoop (MainCpp.Scan.start st) cap.frames).state.got_depth ||
        !(MainCpp.frameLoop (MainCpp.Scan.start st) cap.frames).state.got_ir_left ||
        !(MainCpp.frameLoop (MainCpp.Scan.start st) cap.frames).state.got_ir_right) = true) :
    (∀ ev ∈ (MainCpp.iteration st cap).events, ev.isAddImages = false ∧ ev.isUpdate = false) ∧
    MainCpp.loop st (cap :: rest) =
      ⟨Event.waitForFrames :: (MainCpp.frameLoop (MainCpp.Scan.start st) cap.frames).events ++
        [Event.stop], some 0⟩ := by
  have hq := MainCpp.cpp_frameLoop_quiet (MainCpp.Scan.start st) cap.frames
  have hit : MainCpp.iteration st cap =
      ⟨Event.waitForFrames :: (MainCpp.frameLoop (MainCpp.Scan.start st) cap.frames).events ++
          [Event.stop],
        (MainCpp.frameLoop (MainCpp.Scan.start st) cap.frames).state.toState st.frames_got,
        some 0⟩ := by
    unfold MainCpp.iteration
    simp only [hs, hw, hscan, MainCpp.feedOrCommit, hinc, MainCpp.afterLoop]
    simp
  refine ⟨?_, ?_⟩
  · intro ev hev
    rw [hit] at hev
    simp only [List.cons_append, List.mem_cons, List.mem_append, List.not_mem_nil,
      or_false] at hev
    rcases hev with rfl | hev | rfl
    · exact ⟨rfl, rfl⟩
    · exact ⟨(Event.not_engine (hq ev hev)).2.1, (Event.not_engine (hq ev hev)).1⟩
    · exact ⟨rfl, rfl⟩
  · unfold MainCpp.loop runLoop
    rw [hit]

/-- C8, as amended: in both front-ends an iteration whose capture was scanned
to the end and found incomplete (main.c: the number of infrared frames is not
2; main.cpp: one of the four flags is not set) calls neither `AddImages` nor
`UpdateCalibrationTables`.  In main.c the loop then goes on: the next event is
the wait for the next capture.  In main.cpp the loop is left by `break`: the
pipeline is stopped and the process exits with status 0, whatever captures
would follow. -/
theorem incomplete_capture_not_fed
    (stC : MainC.State) (capC nextC : MainC.Capture) (restC : List MainC.Capture)
    (stP : MainCpp.State) (capP : MainCpp.Capture) (restP : List MainCpp.Capture) :
    (stC.e = false → capC.waitErr = false → capC.countErr = false →
      (MainC.frameLoop 0 (MainC.Scan.start stC false) capC.frames).ret = none →
      (MainC.frameLoop 0 (MainC.Scan.start stC false) capC.frames).state.got_ir_frames ≠ 2 →
      (∀ ev ∈ (MainC.iteration stC capC).events,
        ev.isAddImages = false ∧ ev.isUpdate = false) ∧
      (MainC.iteration stC capC).ret = none ∧
      ∃ tl, (MainC.loop stC (capC :: nextC :: restC)).events =
        (MainC.iteration stC capC).events ++ Event.waitForFrames :: tl) ∧
    (capP.sigint = false → capP.waitThrows = false →
      (MainCpp.frameLoop (MainCpp.Scan.start stP) capP.frames).ret = none →
      (!(MainCpp.frameLoop (MainCpp.Scan.start stP) capP.frames).state.got_color ||
        !(MainCpp.frameLoop (MainCpp.Scan.start stP) capP.frames).state.got_depth ||
        !(MainCpp.frameLoop (MainCpp.Scan.start stP) capP.frames).state.got_ir_left ||
        !(MainCpp.frameLoop (MainCpp.Scan.start stP) capP.frames).state.got_ir_right) = true →
      (∀ ev ∈ (MainCpp.iteration stP capP).events,
        ev.isAddImages = false ∧ ev.isUpdate = false) ∧
      MainCpp.loop stP (capP :: restP) =
        ⟨Event.waitForFrames ::
          (MainCpp.frameLoop (MainCpp.Scan.start stP) capP.frames).events ++ [Event.stop],
          some 0⟩) :=
  ⟨MainC.incomplete_continues stC capC nextC restC,
   MainCpp.incomplete_breaks stP capP restP⟩

/-- Instance of the amended C8 on captures that lack the second infrared frame. -/
theorem incomplete_capture_not_fed_witness :
    ((∀ ev ∈ (MainC.iteration MainC.State.init (MainC.capture
          [MainC.depthFrame 1 11, MainC.colorFrame 2 12, MainC.irFrame 3 13] false
          DCCode.DC_SUCCESS)).events,
        ev.isAddImages = false ∧ ev.isUpdate = false) ∧
      (MainC.iteration MainC.State.init (MainC.capture
          [MainC.depthFrame 1 11, MainC.colorFrame 2 12, MainC.irFrame 3 13] false
          DCCode.DC_SUCCESS)).ret = none ∧
      ∃ tl, (MainC.loop MainC.State.init
          [MainC.capture [MainC.depthFrame 1 11, MainC.colorFrame 2 12, MainC.irFrame 3 13]
            false DCCode.DC_SUCCESS,
           MainC.capture MainC.fullFrames false DCCode.DC_SUCCESS]).events =
        (MainC.iteration MainC.State.init (MainC.capture
          [MainC.depthFrame 1 11, MainC.colorFrame 2 12, MainC.irFrame 3 13] false
          DCCode.DC_SUCCESS)).events ++ Event.waitForFrames :: tl) ∧
    ((∀ ev ∈ (MainCpp.iteration (MainCpp.State.init 0 0) (MainCpp.capture
          [MainCpp.depthFrame 11, MainCpp.colorFrame 12, MainCpp.irFrame 13] false
          DCCode.DC_SUCCESS)).events,
        ev.isAddImages = false ∧ ev.isUpdate = false) ∧
      MainCpp.loop (MainCpp.State.init 0 0)
        [MainCpp.capture [MainCpp.depthFrame 11, MainCpp.colorFrame 12, MainCpp.irFrame 13]
          false DCCode.DC_SUCCESS] =
        ⟨Event.waitForFrames ::
          (MainCpp.frameLoop (MainCpp.Scan.start (MainCpp.State.init 0 0))
            [MainCpp.depthFrame 11, MainCpp.colorFrame 12, MainCpp.irFrame 13]).events ++
            [Event.stop],
          some 0⟩) :=
  have h := incomplete_capture_not_fed MainC.State.init
    (MainC.capture [MainC.depthFrame 1 11, MainC.colorFrame 2 12, MainC.irFrame 3 13] false
      DCCode.DC_SUCCESS)
    (MainC.capture MainC.fullFrames false DCCode.DC_SUCCESS) []
    (MainCpp.State.init 0 0)
    (MainCpp.capture [MainCpp.depthFrame 11, MainCpp.colorFrame 12, MainCpp.irFrame 13] false
      DCCode.DC_SUCCESS) []
  ⟨h.1 rfl rfl rfl (by decide) (by decide), h.2 rfl rfl (by decide) (by decide)⟩

/-- C8 (counterexample): main.cpp on a capture that lacks the second infrared
frame, followed by a complete capture: the process stops the pipeline and
exits with status 0 after the first capture; it never waits for the second. -/
theorem cpp_incomplete_capture_ends_process :
    MainCpp.loop (MainCpp.State.init 0 0)
      [MainCpp.capture [MainCpp.depthFrame 11, MainCpp.colorFrame 12, MainCpp.irFrame 13]
         false DCCode.DC_SUCCESS,
       MainCpp.capture MainCpp.fullFrames false DCCode.DC_SUCCESS] =
      ⟨[Event.waitForFrames, Event.memcpy Buffer.depth 11, Event.memcpy Buffer.color 12,
        Event.memcpy Buffer.irLeft 13, Event.stop], some 0⟩ := by
  decide

/-! ### Resolution checks of main.cpp -/

theorem MainCpp.frameLoop_cons_none (s : MainCpp.Scan) (f : MainCpp.Frame)
    (rest : List MainCpp.Frame) (hr : (MainCpp.frameBody s f).ret = none) :
    MainCpp.frameLoop s (f :: rest) =
      ⟨(MainCpp.frameBody s f).events ++
          (MainCpp.frameLoop (MainCpp.frameBody s f).state rest).events,
        (MainCpp.frameLoop (MainCpp.frameBody s f).state rest).state,
        (MainCpp.frameLoop (MainCpp.frameBody s f).state rest).ret⟩ := by
  conv_lhs => unfold MainCpp.frameLoop
  simp only [hr]

theorem MainCpp.frameLoop_cons_some (s : MainCpp.Scan) (f : MainCpp.Frame)
    (rest : List MainCpp.Frame) (code : Int) (hr : (MainCpp.frameBody s f).ret = some code) :
    MainCpp.frameLoop s (f :: rest) =
      ⟨(MainCpp.frameBody s f).events, (MainCpp.frameBody s f).state, some code⟩ := by
  conv_lhs => unfold MainCpp.frameLoop
  simp only [hr]

theorem MainCpp.frameLoop_append (s : MainCpp.Scan) (pre l : List MainCpp.Frame)
    (hpre : (MainCpp.frameLoop s pre).ret = none) :
    MainCpp.frameLoop s (pre ++ l) =
      ⟨(MainCpp.frameLoop s pre).events ++
          (MainCpp.frameLoop (MainCpp.frameLoop s pre).state l).events,
        (MainCpp.frameLoop (MainCpp.frameLoop s pre).state l).state,
        (MainCpp.frameLoop (MainCpp.frameLoop s pre).state l).ret⟩ := by
  induction pre generalizing s with
  | nil => simp [MainCpp.frameLoop]
  | cons f rest ih =>
    cases hr : (MainCpp.frameBody s f).ret with
    | some code =>
      rw [MainCpp.frameLoop_cons_some s f rest code hr] at hpre
      cases hpre
    | none =>
      rw [MainCpp.frameLoop_cons_none s f rest hr] at hpre ⊢
      simp only at hpre ⊢
      rw [List.cons_append, MainCpp.frameLoop_cons_none s f _ hr, ih _ hpre]
      simp only [List.append_assoc]

theorem MainCpp.frameBody_mismatched (s : MainCpp.Scan) (f : MainCpp.Frame)
    (h : MainCpp.Mismatched s.d_width f) :
    (MainCpp.frameBody s f).events = [Event.stop] ∧ (MainCpp.frameBody s f).ret = some 1 := by
  unfold MainCpp.frameBody
  rcases h with ⟨hd, hbad⟩ | ⟨hd, hv, hw, hbad⟩
  · simp [hd, hbad]
  · simp [hd, hv, hw, hbad]

theorem MainCpp.frameLoop_memcpy_count (s : MainCpp.Scan) (frames : List MainCpp.Frame) :
    ((MainCpp.frameLoop s frames).events.filter Event.isMemcpy).length ≤ frames.length := by
  induction frames generalizing s with
  | nil => simp [MainCpp.frameLoop]
  | cons f rest ih =>
    have hb : ((MainCpp.frameBody s f).events.filter Event.isMemcpy).length ≤ 1 := by
      unfold MainCpp.frameBody
      simp only
      split_ifs <;> simp [List.filter_cons, Event.isMemcpy]
    cases hr : (MainCpp.frameBody s f).ret with
    | some code =>
      rw [MainCpp.frameLoop_cons_some s f rest code hr]
      simp only [List.length_cons]
      omega
    | none =>
      rw [MainCpp.frameLoop_cons_none s f rest hr]
      simp only [List.filter_append, List.length_append, List.length_cons]
      have := ih (MainCpp.frameBody s f).state
      omega

/-- C9, as amended: in main.cpp, when the scan of a capture reaches a frame
that it classifies as depth and that is not 1280 x 720, or that it classifies
as color (a video frame whose width differs from `d_width`) and that is not
1920 x 1080, the process stops the pipeline and exits with status 1.  The
events of the iteration are the wait, the copies of the frames before that
frame, and the stop: the frame is not copied and `AddImages` is not called. -/
theorem cpp_rejects_mismatched_depth_and_color
    (st : MainCpp.State) (cap : MainCpp.Capture) (rest : List MainCpp.Capture)
    (pre post : List MainCpp.Frame) (f : MainCpp.Frame)
    (hs : cap.sigint = false) (hw : cap.waitThrows = false)
    (hframes : cap.frames = pre ++ f :: post)
    (hpre : (MainCpp.frameLoop (MainCpp.Scan.start st) pre).ret = none)
    (hbad : MainCpp.Mismatched (MainCpp.frameLoop (MainCpp.Scan.start st) pre).state.d_width f) :
    MainCpp.loop st (cap :: rest) =
      ⟨Event.waitForFrames :: (MainCpp.frameLoop (MainCpp.Scan.start st) pre).events ++
        [Event.stop], some 1⟩ ∧
    (∀ ev ∈ (MainCpp.loop st (cap :: rest)).events, ev.isAddImages = false) ∧
    ((MainCpp.loop st (cap :: rest)).events.filter Event.isMemcpy).length ≤ pre.length := by
  have hq := MainCpp.cpp_frameLoop_quiet (MainCpp.Scan.start st) pre
  obtain ⟨hev, hret⟩ := MainCpp.frameBody_mismatched _ f hbad
  have hscan : MainCpp.frameLoop (MainCpp.Scan.start st) cap.frames =
      ⟨(MainCpp.frameLoop (MainCpp.Scan.start st) pre).events ++ [Event.stop],
        (MainCpp.frameBody (MainCpp.frameLoop (MainCpp.Scan.start st) pre).state f).state,
        some 1⟩ := by
    rw [hframes, MainCpp.frameLoop_append _ _ _ hpre,
      MainCpp.frameLoop_cons_some _ f post 1 hret, hev]
  have hloop : MainCpp.loop st (cap :: rest) =
      ⟨Event.waitForFrames :: (MainCpp.frameLoop (MainCpp.Scan.start st) pre).events ++
        [Event.stop], some 1⟩ := by
    unfold MainCpp.loop runLoop MainCpp.iteration
    simp only [hs, hw, hscan]
    simp
  refine ⟨hloop, ?_, ?_⟩
  · rw [hloop]
    intro ev hmem
    simp only [List.cons_append, List.mem_cons, List.mem_append, List.not_mem_nil,
      or_false] at hmem
    rcases hmem with rfl | hmem | rfl
    · rfl
    · exact (Event.not_engine (hq ev hmem)).2.1
    · rfl
  · rw [hloop]
    simp only [List.cons_append, List.filter_cons, List.filter_append, Event.isMemcpy,
      Bool.false_eq_true, if_false, List.filter_nil, List.append_nil]
    exact MainCpp.frameLoop_memcpy_count _ pre

/-- Instance of the amended C9 on a capture whose color frame is 1920 x 1000. -/
theorem cpp_rejects_mismatched_depth_and_color_witness :
    MainCpp.loop (MainCpp.State.init 0 0)
        [MainCpp.capture
          [MainCpp.depthFrame 11, ⟨false, true, 1920, 1000, 12⟩, MainCpp.irFrame 13]
          false DCCode.DC_SUCCESS] =
      ⟨Event.waitForFrames ::
        (MainCpp.frameLoop (MainCpp.Scan.start (MainCpp.State.init 0 0))
          [MainCpp.depthFrame 11]).events ++ [Event.stop], some 1⟩ ∧
    (∀ ev ∈ (MainCpp.loop (MainCpp.State.init 0 0)
        [MainCpp.capture
          [MainCpp.depthFrame 11, ⟨false, true, 1920, 1000, 12⟩, MainCpp.irFrame 13]
          false DCCode.DC_SUCCESS]).events, ev.isAddImages = false) ∧
    ((MainCpp.loop (MainCpp.State.init 0 0)
        [MainCpp.capture
          [MainCpp.depthFrame 11, ⟨false, true, 1920, 1000, 12⟩, MainCpp.irFrame 13]
          false DCCode.DC_SUCCESS]).events.filter Event.isMemcpy).length ≤
      [MainCpp.depthFrame 11].length :=
  cpp_rejects_mismatched_depth_and_color (MainCpp.State.init 0 0)
    (MainCpp.capture
      [MainCpp.depthFrame 11, ⟨false, true, 1920, 1000, 12⟩, MainCpp.irFrame 13]
      false DCCode.DC_SUCCESS) []
    [MainCpp.depthFrame 11] [MainCpp.irFrame 13] ⟨false, true, 1920, 1000, 12⟩
    rfl rfl rfl (by decide) (by decide)

/-- C9 (counterexample): main.c copies a 640 x 480 depth frame into the
1280 x 720 depth buffer, feeds it to `AddImages` and goes on; main.cpp copies a
1280 x 100 infrared frame into the left infrared buffer and feeds it. -/
theorem mismatched_frames_silently_accepted :
    MainC.iteration MainC.State.init
        (MainC.capture
          [⟨1, false, true, false, true, false, 640, 480, false, 11, false⟩,
           MainC.colorFrame 2 12, MainC.irFrame 3 13, MainC.irFrame 4 14]
          false DCCode.DC_SUCCESS) =
      ⟨[Event.waitForFrames, Event.extractFrame 1, Event.memcpy Buffer.depth 11,
        Event.extractFrame 2, Event.extractFrame 3, Event.memcpy Buffer.irLeft 13,
        Event.extractFrame 4, Event.memcpy Buffer.irRight 14,
        Event.isGridFull false, Event.addImages 13 14 11 5 DCCode.DC_SUCCESS,
        Event.releaseFrame 1, Event.releaseFrame 1, Event.releaseFrame 2,
        Event.releaseFrame 3, Event.releaseFrame 4],
       ⟨false, 11, 13, 14⟩, none⟩ ∧
    MainCpp.iteration (MainCpp.State.init 0 0)
        (MainCpp.capture
          [MainCpp.depthFrame 11, MainCpp.colorFrame 12, ⟨false, true, 1280, 100, 13⟩,
           MainCpp.irFrame 14]
          false DCCode.DC_SUCCESS) =
      ⟨[Event.waitForFrames, Event.memcpy Buffer.depth 11, Event.memcpy Buffer.color 12,
        Event.memcpy Buffer.irLeft 13, Event.memcpy Buffer.irRight 14,
        Event.isGridFull false, Event.addImages 13 14 11 5000 DCCode.DC_SUCCESS],
       ⟨1280, 720, 12, 13, 14, 11, 1⟩, none⟩ := by
  constructor <;> rfl

/-- C10, as amended: in main.c a video frame that is not a depth frame, read
without a device error, is copied into an infrared buffer exactly when its
height is `cDepthH` = 720 and is otherwise ignored as color, whatever its width
and position.  In main.cpp a video frame that is not a depth frame is copied
into an infrared buffer exactly when its width equals `d_width`, and is
otherwise treated as color (copied into the color buffer or rejected); its
height plays no part.  `d_width` is the width of the last depth frame seen, so
it is 1280 once the scan has passed a depth frame. -/
theorem infrared_classification
    (f : Nat) (sC : MainC.Scan) (frC : MainC.Frame)
    (sP : MainCpp.Scan) (frP : MainCpp.Frame) :
    (sC.e = false → frC.extractErr = false → frC.isDepthErr = false →
      frC.isVideoErr = false → frC.heightErr = false →
      frC.isDepth = false → frC.isVideo = true →
      (frC.height = MainC.cDepthH →
        (MainC.frameBody f sC frC).events =
          [Event.extractFrame frC.handle,
           Event.memcpy (if f = 2 then Buffer.irLeft else Buffer.irRight) frC.data] ∧
        (MainC.frameBody f sC frC).state.got_ir_frames = sC.got_ir_frames + 1 ∧
        (MainC.frameBody f sC frC).ret = none) ∧
      (frC.height ≠ MainC.cDepthH →
        (MainC.frameBody f sC frC).events = [Event.extractFrame frC.handle] ∧
        (MainC.frameBody f sC frC).state.got_ir_frames = sC.got_ir_frames ∧
        (MainC.frameBody f sC frC).ret = none)) ∧
    (frP.isDepth = false → frP.isVideo = true →
      (frP.width = sP.d_width →
        (MainCpp.frameBody sP frP).events =
          [Event.memcpy (if sP.ir_index = 0 then Buffer.irLeft else Buffer.irRight)
            frP.data] ∧
        (MainCpp.frameBody sP frP).state.ir_index = sP.ir_index + 1 ∧
        (MainCpp.frameBody sP frP).ret = none) ∧
      (frP.width ≠ sP.d_width →
        ((MainCpp.frameBody sP frP).events = [Event.memcpy Buffer.color frP.data] ∧
          (MainCpp.frameBody sP frP).ret = none) ∨
        ((MainCpp.frameBody sP frP).events = [Event.stop] ∧
          (MainCpp.frameBody sP frP).ret = some 1))) ∧
    (frP.isDepth = true → (MainCpp.frameBody sP frP).ret = none →
      (MainCpp.frameBody sP frP).state.d_width = MainCpp.depth_w) ∧
    (frP.isDepth = false → (MainCpp.frameBody sP frP).state.d_width = sP.d_width) := by
  refine ⟨?_, ?_, ?_, ?_⟩
  · intro he h1 h2 h3 h4 hd hv
    unfold MainC.frameBody
    simp only [he, h1, h2, h3, h4, hd, hv, MainC.check_error]
    constructor
    · intro hh
      by_cases hf : f = 2 <;> simp [hh, hf]
    · intro hh
      simp [hh]
  · intro hd hv
    unfold MainCpp.frameBody
    simp only [hd, hv]
    constructor
    · intro hw
      by_cases hi : sP.ir_index = 0 <;> simp [hw, hi]
    · intro hw
      by_cases hc : frP.width ≠ MainCpp.color_w ∨ frP.height ≠ MainCpp.color_h
      · right
        simp [hw, hc]
      · left
        simp [hw, hc]
  · intro hd
    unfold MainCpp.frameBody
    simp only [hd]
    by_cases hc : frP.width ≠ MainCpp.depth_w ∨ frP.height ≠ MainCpp.depth_h
    · simp [hc]
    · simp only [if_true, hc, if_false]
      intro _
      simp only [not_or, not_not] at hc
      exact hc.1
  · intro hd
    unfold MainCpp.frameBody
    simp only [hd, Bool.false_eq_true, if_false]
    split_ifs <;> rfl

/-- Instance of the amended C10 on frames of the configured resolutions. -/
theorem infrared_classification_witness :
    ((MainC.frameBody 2 (MainC.Scan.start MainC.State.init false) (MainC.irFrame 3 13)).events =
        [Event.extractFrame 3, Event.memcpy (if 2 = 2 then Buffer.irLeft else Buffer.irRight) 13] ∧
      (MainC.frameBody 2 (MainC.Scan.start MainC.State.init false)
        (MainC.irFrame 3 13)).state.got_ir_frames = 0 + 1 ∧
      (MainC.frameBody 2 (MainC.Scan.start MainC.State.init false)
        (MainC.irFrame 3 13)).ret = none) ∧
    ((MainC.frameBody 1 (MainC.Scan.start MainC.State.init false)
        (MainC.colorFrame 2 12)).events = [Event.extractFrame 2] ∧
      (MainC.frameBody 1 (MainC.Scan.start MainC.State.init false)
        (MainC.colorFrame 2 12)).state.got_ir_frames = 0 ∧
      (MainC.frameBody 1 (MainC.Scan.start MainC.State.init false)
        (MainC.colorFrame 2 12)).ret = none) ∧
    ((MainCpp.frameBody (MainCpp.Scan.start (MainCpp.State.init 1280 720))
        (MainCpp.irFrame 13)).events =
        [Event.memcpy (if (0 : Nat) = 0 then Buffer.irLeft else Buffer.irRight) 13] ∧
      (MainCpp.frameBody (MainCpp.Scan.start (MainCpp.State.init 1280 720))
        (MainCpp.irFrame 13)).state.ir_index = 0 + 1 ∧
      (MainCpp.frameBody (MainCpp.Scan.start (MainCpp.State.init 1280 720))
        (MainCpp.irFrame 13)).ret = none) ∧
    (((MainCpp.frameBody (MainCpp.Scan.start (MainCpp.State.init 1280 720))
          (MainCpp.colorFrame 12)).events = [Event.memcpy Buffer.color 12] ∧
        (MainCpp.frameBody (MainCpp.Scan.start (MainCpp.State.init 1280 720))
          (MainCpp.colorFrame 12)).ret = none) ∨
      ((MainCpp.frameBody (MainCpp.Scan.start (MainCpp.State.init 1280 720))
          (MainCpp.colorFrame 12)).events = [Event.stop] ∧
        (MainCpp.frameBody (MainCpp.Scan.start (MainCpp.State.init 1280 720))
          (MainCpp.colorFrame 12)).ret = some 1)) ∧
    (MainCpp.frameBody (MainCpp.Scan.start (MainCpp.State.init 0 0))
        (MainCpp.depthFrame 11)).state.d_width = MainCpp.depth_w ∧
    (MainCpp.frameBody (MainCpp.Scan.start (MainCpp.State.init 1280 720))
        (MainCpp.irFrame 13)).state.d_width = 1280 :=
  ⟨((infrared_classification 2 (MainC.Scan.start MainC.State.init false) (MainC.irFrame 3 13)
      (MainCpp.Scan.start (MainCpp.State.init 1280 720)) (MainCpp.irFrame 13)).1
      rfl rfl rfl rfl rfl rfl rfl).1 rfl,
   ((infrared_classification 1 (MainC.Scan.start MainC.State.init false)
      (MainC.colorFrame 2 12)
      (MainCpp.Scan.start (MainCpp.State.init 1280 720)) (MainCpp.colorFrame 12)).1
      rfl rfl rfl rfl rfl rfl rfl).2 (by decide),
   ((infrared_classification 2 (MainC.Scan.start MainC.State.init false) (MainC.irFrame 3 13)
      (MainCpp.Scan.start (MainCpp.State.init 1280 720)) (MainCpp.irFrame 13)).2.1
      rfl rfl).1 rfl,
   ((infrared_classification 1 (MainC.Scan.start MainC.State.init false)
      (MainC.colorFrame 2 12)
      (MainCpp.Scan.start (MainCpp.State.init 1280 720)) (MainCpp.colorFrame 12)).2.1
      rfl rfl).2 (by decide),
   (infrared_classification 2 (MainC.Scan.start MainC.State.init false) (MainC.irFrame 3 13)
      (MainCpp.Scan.start (MainCpp.State.init 0 0)) (MainCpp.depthFrame 11)).2.2.1 rfl rfl,
   (infrared_classification 2 (MainC.Scan.start MainC.State.init false) (MainC.irFrame 3 13)
      (MainCpp.Scan.start (MainCpp.State.init 1280 720)) (MainCpp.irFrame 13)).2.2.2 rfl⟩

/-- C10 (counterexample): in main.cpp, after a depth frame, a video frame of
1280 x 1080 is copied into the left infrared buffer although its height is not
720, and a video frame of 1920 x 720 is taken for a color frame (and rejected
with exit status 1) although its height is 720; and a 1280 x 720 video frame
that arrives before the first depth frame, with 0 standing for the value of
the uninitialised `d_width`, is taken for a color frame as well. -/
theorem cpp_classifies_by_width :
    MainCpp.loop (MainCpp.State.init 0 0)
        [MainCpp.capture [MainCpp.depthFrame 11, ⟨false, true, 1280, 1080, 13⟩]
          false DCCode.DC_SUCCESS] =
      ⟨[Event.waitForFrames, Event.memcpy Buffer.depth 11, Event.memcpy Buffer.irLeft 13,
        Event.stop], some 0⟩ ∧
    MainCpp.loop (MainCpp.State.init 0 0)
        [MainCpp.capture [MainCpp.depthFrame 11, ⟨false, true, 1920, 720, 13⟩]
          false DCCode.DC_SUCCESS] =
      ⟨[Event.waitForFrames, Event.memcpy Buffer.depth 11, Event.stop], some 1⟩ ∧
    MainCpp.loop (MainCpp.State.init 0 0)
        [MainCpp.capture [MainCpp.irFrame 13, MainCpp.depthFrame 11]
          false DCCode.DC_SUCCESS] =
      ⟨[Event.waitForFrames, Event.stop], some 1⟩ := by
  decide

/-! ### Failure of `dyncal.Initialize` -/

/-- For each of the four return codes that the `switch` after
`dyncal.Initialize` names as failures, both front-ends leave `main` with exit
status 1 before the capture loop starts, whatever captures would follow; so a
run in which `AddImages` or `UpdateCalibrationTables` is called is a run in
which the return code was none of these four. -/
theorem init_named_failure_exits (retcode : DCCode) (capsC : List MainC.Capture)
    (setup : MainCpp.Setup) (d_width d_height : Int) (capsP : List MainCpp.Capture) :
    (retcode.isInitFailure = true →
      MainC.mainFromInit retcode capsC = ⟨[Event.cleanExit 1], some 1⟩ ∧
      MainCpp.mainFromInit retcode setup d_width d_height capsP = ⟨[], some 1⟩) ∧
    ((∃ ev ∈ (MainC.mainFromInit retcode capsC).events,
        ev.isAddImages = true ∨ ev.isUpdate = true) → retcode.isInitFailure = false) ∧
    ((∃ ev ∈ (MainCpp.mainFromInit retcode setup d_width d_height capsP).events,
        ev.isAddImages = true ∨ ev.isUpdate = true) → retcode.isInitFailure = false) := by
  cases retcode <;>
    simp [DCCode.isInitFailure, MainC.mainFromInit, MainCpp.mainFromInit, Event.isAddImages,
      Event.isUpdate]

theorem InitResult.failure_of_ne_success (r : InitResult) (h : r ≠ InitResult.DC_SUCCESS) :
    r.code.isInitFailure = true := by
  cases r
  · exact (h rfl).elim
  all_goals rfl

theorem InitResult.success_of_not_failure (r : InitResult)
    (h : r.code.isInitFailure = false) : r = InitResult.DC_SUCCESS := by
  cases r
  · rfl
  all_goals cases h

/-- C11: in both front-ends, for every result of `dyncal.Initialize` other
than `DC_SUCCESS` the process terminates with exit status 1 before the capture
loop starts (no wait for frames, no engine call, whatever captures would
follow), so a run in which `AddImages` or `UpdateCalibrationTables` is called
is a run in which `Initialize` returned `DC_SUCCESS`. -/
theorem init_failure_is_fatal (r : InitResult) (capsC : List MainC.Capture)
    (setup : MainCpp.Setup) (d_width d_height : Int) (capsP : List MainCpp.Capture) :
    (r ≠ InitResult.DC_SUCCESS →
      MainC.mainFromInit r.code capsC = ⟨[Event.cleanExit 1], some 1⟩ ∧
      MainCpp.mainFromInit r.code setup d_width d_height capsP = ⟨[], some 1⟩) ∧
    ((∃ ev ∈ (MainC.mainFromInit r.code capsC).events,
        ev.isAddImages = true ∨ ev.isUpdate = true) → r = InitResult.DC_SUCCESS) ∧
    ((∃ ev ∈ (MainCpp.mainFromInit r.code setup d_width d_height capsP).events,
        ev.isAddImages = true ∨ ev.isUpdate = true) → r = InitResult.DC_SUCCESS) :=
  ⟨fun h => (init_named_failure_exits r.code capsC setup d_width d_height capsP).1
      (r.failure_of_ne_success h),
   fun h => r.success_of_not_failure
      ((init_named_failure_exits r.code capsC setup d_width d_height capsP).2.1 h),
   fun h => r.success_of_not_failure
      ((init_named_failure_exits r.code capsC setup d_width d_height capsP).2.2 h)⟩

/-- Instance of C11 on the result `DC_ERROR_TABLE_NOT_SUPPORTED`, and on the
complete capture that is fed after `DC_SUCCESS`. -/
theorem init_failure_is_fatal_witness :
    (MainC.mainFromInit InitResult.DC_ERROR_TABLE_NOT_SUPPORTED.code
        [MainC.capture MainC.fullFrames false DCCode.DC_SUCCESS] =
        ⟨[Event.cleanExit 1], some 1⟩ ∧
      MainCpp.mainFromInit InitResult.DC_ERROR_TABLE_NOT_SUPPORTED.code ⟨false, true⟩ 0 0
        [MainCpp.capture MainCpp.fullFrames false DCCode.DC_SUCCESS] = ⟨[], some 1⟩) ∧
    InitResult.DC_SUCCESS = InitResult.DC_SUCCESS ∧
    InitResult.DC_SUCCESS = InitResult.DC_SUCCESS :=
  ⟨(init_failure_is_fatal InitResult.DC_ERROR_TABLE_NOT_SUPPORTED
      [MainC.capture MainC.fullFrames false DCCode.DC_SUCCESS] ⟨false, true⟩ 0 0
      [MainCpp.capture MainCpp.fullFrames false DCCode.DC_SUCCESS]).1 (by decide),
   (init_failure_is_fatal InitResult.DC_SUCCESS
      [MainC.capture MainC.fullFrames false DCCode.DC_SUCCESS] ⟨false, true⟩ 0 0
      [MainCpp.capture MainCpp.fullFrames false DCCode.DC_SUCCESS]).2.1
      ⟨Event.addImages 13 14 11 5 DCCode.DC_SUCCESS, by decide, Or.inl rfl⟩,
   (init_failure_is_fatal InitResult.DC_SUCCESS
      [MainC.capture MainC.fullFrames false DCCode.DC_SUCCESS] ⟨false, true⟩ 0 0
      [MainCpp.capture MainCpp.fullFrames false DCCode.DC_SUCCESS]).2.2
      ⟨Event.addImages 13 14 11 5000 DCCode.DC_SUCCESS, by decide, Or.inl rfl⟩⟩

/-! ### The timestamp passed to `AddImages` -/

theorem MainC.c_add_timestamp (st : MainC.State) (cap : MainC.Capture) (l r d : Nat) (ts : Int)
    (c : DCCode) (h : Event.addImages l r d ts c ∈ (MainC.iteration st cap).events) :
    ts = Int.tdiv cap.clock 1000 := by
  have hq : ∀ (evs : List Event), (∀ x ∈ evs, x.isEngine = false) →
      Event.addImages l r d ts c ∈ evs → False :=
    fun evs hevs hmem => quiet_no_add evs hevs ⟨_, hmem, rfl⟩
  unfold MainC.iteration at h
  simp only at h
  split_ifs at h with h1 h2
  · exact (hq _ (quiet_wait_cons _ (MainC.returnCleanExit_quiet 1 [] _ (by simp))) h).elim
  · exact (hq _ (quiet_wait_cons _ (MainC.returnCleanExit_quiet 1 [] _ (by simp))) h).elim
  · generalize hs1 : ({ MainC.Scan.start st (st.e || cap.waitErr) with
        e := (MainC.Scan.start st (st.e || cap.waitErr)).e || cap.countErr } : MainC.Scan) = s1
      at h
    have hscan := MainC.c_frameLoop_quiet 0 s1 cap.frames
    split at h
    · exact (hq _ (quiet_wait_cons _ hscan) h).elim
    · simp only [List.cons_append, List.mem_cons, List.mem_append] at h
      rcases h with h | h | h
      · cases h
      · exact (hq _ hscan h).elim
      · unfold MainC.feedOrCommit at h
        simp only at h
        split_ifs at h with h3 h4
        · simp only [List.cons_append, List.nil_append, List.mem_cons] at h
          rcases h with h | h | h
          · cases h
          · injection h with _ _ _ hts _
          · exact (hq _ (fun x hx => (MainC.destroy_quiet _ x hx).1) h).elim
        · simp only [List.cons_append, List.nil_append, List.mem_cons] at h
          rcases h with h | h | h | h
          · cases h
          · cases h
          · cases h
          · exact (hq _ (fun x hx => (MainC.destroy_quiet _ x hx).1) h).elim
        · exact (hq _ (fun x hx => (MainC.destroy_quiet _ x hx).1) h).elim

theorem MainCpp.cpp_add_timestamp (st : MainCpp.State) (cap : MainCpp.Capture) (l r d : Nat)
    (ts : Int) (c : DCCode)
    (h : Event.addImages l r d ts c ∈ (MainCpp.iteration st cap).events) :
    ts = cap.clock := by
  have hq : ∀ (evs : List Event), (∀ x ∈ evs, x.isEngine = false) →
      Event.addImages l r d ts c ∈ evs → False :=
    fun evs hevs hmem => quiet_no_add evs hevs ⟨_, hmem, rfl⟩
  have hscan := MainCpp.cpp_frameLoop_quiet (MainCpp.Scan.start st) cap.frames
  unfold MainCpp.iteration at h
  simp only at h
  split_ifs at h with h1 h2
  · simp [MainCpp.afterLoop] at h
  · simp at h
  · split at h
    · exact (hq _ (quiet_wait_cons _ hscan) h).elim
    · simp only [List.cons_append, List.mem_cons, List.mem_append] at h
      rcases h with h | h | h
      · cases h
      · exact (hq _ hscan h).elim
      · unfold MainCpp.feedOrCommit at h
        simp only at h
        split_ifs at h with h3 h4
        · simp [MainCpp.afterLoop] at h
        · simp only [List.mem_cons, List.mem_singleton, List.not_mem_nil, or_false] at h
          rcases h with h | h
          · cases h
          · injection h with _ _ _ hts _
        · simp at h

/-- C12 (evaluation at the failing input): with the system clock reading
5000 ms since the epoch, main.c passes 5 to `AddImages` as the timestamp (the
reading divided by 1000), while main.cpp passes 5000. -/
theorem c_timestamp_divided_by_1000 :
    (MainC.capture MainC.fullFrames false DCCode.DC_SUCCESS).clock = 5000 ∧
    Event.addImages 13 14 11 5 DCCode.DC_SUCCESS ∈
      (MainC.iteration MainC.State.init
        (MainC.capture MainC.fullFrames false DCCode.DC_SUCCESS)).events ∧
    (MainCpp.capture MainCpp.fullFrames false DCCode.DC_SUCCESS).clock = 5000 ∧
    Event.addImages 13 14 11 5000 DCCode.DC_SUCCESS ∈
      (MainCpp.iteration (MainCpp.State.init 0 0)
        (MainCpp.capture MainCpp.fullFrames false DCCode.DC_SUCCESS)).events := by
  decide

/-- For every clock reading, the timestamp main.c passes to `AddImages` is the
reading divided by 1000, rounded toward zero, and the timestamp main.cpp
passes is the reading itself. -/
theorem timestamp_passed_to_feed
    (stC : MainC.State) (capC : MainC.Capture) (stP : MainCpp.State) (capP : MainCpp.Capture)
    (l r d : Nat) (ts : Int) (c : DCCode) :
    (Event.addImages l r d ts c ∈ (MainC.iteration stC capC).events →
      ts = Int.tdiv capC.clock 1000) ∧
    (Event.addImages l r d ts c ∈ (MainCpp.iteration stP capP).events → ts = capP.clock) :=
  ⟨MainC.c_add_timestamp stC capC l r d ts c, MainCpp.cpp_add_timestamp stP capP l r d ts c⟩

/-! ### Frame-time report of main.cpp -/

theorem toInt32_of_range (x : Int) (h1 : -(2 ^ 31) ≤ x) (h2 : x < 2 ^ 31) : toInt32 x = x := by
  unfold toInt32
  omega

theorem toSizeT_of_range (x : Int) (h1 : 0 ≤ x) (h2 : x < 2 ^ 64) : toSizeT x = x := by
  unfold toSizeT
  omega

theorem MainCpp.lastN_of_le (n : Nat) (l : List Int) (h : l.length ≤ n) :
    MainCpp.lastN n l = l := by
  unfold MainCpp.lastN
  rw [Nat.sub_eq_zero_of_le h]
  rfl

theorem MainCpp.lastN_length (n : Nat) (l : List Int) :
    (MainCpp.lastN n l).length = min l.length n := by
  unfold MainCpp.lastN
  rw [List.length_drop]
  omega

theorem MainCpp.lastN_append (n : Nat) (a b : List Int) :
    MainCpp.lastN n (MainCpp.lastN n a ++ b) = MainCpp.lastN n (a ++ b) := by
  by_cases h : a.length ≤ n
  · rw [MainCpp.lastN_of_le n a h]
  · unfold MainCpp.lastN
    have hk : (a.length - n) ≤ a.length := Nat.sub_le _ _
    have e1 : (List.drop (a.length - n) a ++ b).length - n = b.length := by
      simp only [List.length_append, List.length_drop]
      omega
    have e2 : (a ++ b).length - n = (a.length - n) + b.length := by
      simp only [List.length_append]
      omega
    rw [e1, e2, ← List.drop_drop, List.drop_append_of_le_length hk]

theorem MainCpp.sum_ge_length (l : List Int) (h : ∀ x ∈ l, 1 ≤ x) : (l.length : Int) ≤ l.sum := by
  induction l with
  | nil => simp
  | cons x xs ih =>
    simp only [List.mem_cons, forall_eq_or_imp] at h
    have := ih h.2
    simp only [List.length_cons, List.sum_cons, Nat.cast_add, Nat.cast_one]
    omega

theorem MainCpp.trackerStep_ftimes (t : MainCpp.Tracker) (dur : Int)
    (h : t.ftimes.length ≤ 100) :
    (MainCpp.trackerStep t dur).tracker.ftimes =
      MainCpp.lastN 100 (t.ftimes ++ [MainCpp.recorded dur]) := by
  unfold MainCpp.trackerStep MainCpp.recorded
  simp only
  by_cases hl : (t.ftimes ++ [toInt32 (MainCpp.clampDur dur)]).length > 100
  · rw [if_pos hl]
    have hlen : (t.ftimes ++ [toInt32 (MainCpp.clampDur dur)]).length - 100 = 1 := by
      simp only [List.length_append, List.length_singleton] at hl ⊢
      omega
    unfold MainCpp.lastN
    rw [hlen, List.drop_one]
  · rw [if_neg hl, MainCpp.lastN_of_le _ _ (by omega)]

theorem MainCpp.trackerRun_ftimes (durs : List Int) (t0 t : MainCpp.Tracker)
    (h0 : t0.ftimes.length ≤ 100) (hrun : MainCpp.trackerRun t0 durs = some t) :
    t.ftimes = MainCpp.lastN 100 (t0.ftimes ++ durs.map MainCpp.recorded) := by
  induction durs generalizing t0 with
  | nil =>
    simp only [MainCpp.trackerRun, Option.some.injEq] at hrun
    subst hrun
    simp [MainCpp.lastN_of_le _ _ h0]
  | cons d rest ih =>
    unfold MainCpp.trackerRun at hrun
    have hstep := MainCpp.trackerStep_ftimes t0 d h0
    cases hfps : (MainCpp.trackerStep t0 d).avg_fps with
    | none => simp [hfps] at hrun
    | some fps =>
      simp only [hfps] at hrun
      have hlen : (MainCpp.trackerStep t0 d).tracker.ftimes.length ≤ 100 := by
        rw [hstep, MainCpp.lastN_length]
        omega
      rw [ih _ hlen hrun, hstep, MainCpp.lastN_append]
      simp

theorem MainCpp.clampDur_pos (dur : Int) (h : 0 ≤ dur) : 1 ≤ MainCpp.clampDur dur := by
  unfold MainCpp.clampDur
  split_ifs <;> omega

/-- The report computed from a window `w` of positive entries whose sum fits
an `int` and from `dur_sum = w.sum`. -/
theorem MainCpp.report_of_window (w : List Int) (hne : w ≠ []) (hpos : ∀ x ∈ w, 1 ≤ x)
    (hsum : w.sum < 2 ^ 31) :
    toInt32 (toSizeT w.sum / (w.length : Int)) = w.sum / (w.length : Int) ∧
    1 ≤ w.sum / (w.length : Int) ∧ w.sum ≠ 0 := by
  have hlen := MainCpp.sum_ge_length w hpos
  have hlpos : (0 : Int) < (w.length : Int) := by
    have : 0 < w.length := List.length_pos.mpr hne
    exact_mod_cast this
  have hq1 : 1 ≤ w.sum / (w.length : Int) := by
    rw [Int.le_ediv_iff_mul_le hlpos]
    omega
  have hq2 : w.sum / (w.length : Int) ≤ w.sum := by
    apply Int.ediv_le_self
    omega
  refine ⟨?_, hq1, by omega⟩
  rw [toSizeT_of_range _ (by omega) (by omega), toInt32_of_range _ (by omega) (by omega)]

theorem MainCpp.trackerStep_bounded (t : MainCpp.Tracker) (dur : Int)
    (hpos : ∀ x ∈ t.ftimes, 1 ≤ x) (hlen : t.ftimes.length ≤ 100)
    (hsum : t.dur_sum = t.ftimes.sum) (hold : t.ftimes.sum < 2 ^ 31) (hd : 0 ≤ dur)
    (hnew : (MainCpp.lastN 100 (t.ftimes ++ [MainCpp.clampDur dur])).sum < 2 ^ 31) :
    (MainCpp.trackerStep t dur).tracker =
      ⟨MainCpp.lastN 100 (t.ftimes ++ [MainCpp.clampDur dur]),
        (MainCpp.lastN 100 (t.ftimes ++ [MainCpp.clampDur dur])).sum⟩ ∧
    (MainCpp.trackerStep t dur).avg_dur =
      some ((MainCpp.lastN 100 (t.ftimes ++ [MainCpp.clampDur dur])).sum /
        ((MainCpp.lastN 100 (t.ftimes ++ [MainCpp.clampDur dur])).length : Int)) ∧
    1 ≤ (MainCpp.lastN 100 (t.ftimes ++ [MainCpp.clampDur dur])).sum /
        ((MainCpp.lastN 100 (t.ftimes ++ [MainCpp.clampDur dur])).length : Int) ∧
    (MainCpp.trackerStep t dur).avg_fps =
      some (Int.tdiv 1000 ((MainCpp.lastN 100 (t.ftimes ++ [MainCpp.clampDur dur])).sum /
        ((MainCpp.lastN 100 (t.ftimes ++ [MainCpp.clampDur dur])).length : Int))) ∧
    (∀ x ∈ MainCpp.lastN 100 (t.ftimes ++ [MainCpp.clampDur dur]), 1 ≤ x) := by
  obtain ⟨F, S⟩ := t
  simp only at hpos hlen hsum hold hnew ⊢
  subst hsum
  have hc := MainCpp.clampDur_pos dur hd
  have hstep : MainCpp.trackerStep ⟨F, F.sum⟩ dur =
      (let c := MainCpp.clampDur dur
       let ftimes := F ++ [toInt32 c]
       let dur_sum := if ftimes.length > 100 then toInt32 (F.sum - ftimes.headD 0) else F.sum
       let ftimes := if ftimes.length > 100 then ftimes.tail else ftimes
       let dur_sum := toInt32 (dur_sum + c)
       let avg_dur : Option Int :=
         if ftimes.length = 0 then none
         else some (toInt32 (toSizeT dur_sum / (ftimes.length : Int)))
       let dur_sum := if dur_sum = 0 then 1 else dur_sum
       let avg_fps : Option Int :=
         match avg_dur with
         | none => none
         | some a => if a = 0 then none else some (Int.tdiv 1000 a)
       ⟨⟨ftimes, dur_sum⟩, avg_dur, avg_fps⟩) := rfl
  rw [hstep]
  clear hstep
  generalize MainCpp.clampDur dur = c at hc hnew ⊢
  have hF0 : 0 ≤ F.sum := by
    have := MainCpp.sum_ge_length F hpos
    omega
  -- the new window, its entries and its sum
  have hW : ∃ W : List Int, MainCpp.lastN 100 (F ++ [c]) = W ∧ W ≠ [] ∧ (∀ x ∈ W, 1 ≤ x) ∧
      c < 2 ^ 31 ∧
      (if (F ++ [c]).length > 100 then (F ++ [c]).tail else F ++ [c]) = W ∧
      (if (F ++ [c]).length > 100 then toInt32 (F.sum - (F ++ [c]).headD 0) else F.sum) + c =
        W.sum := by
    by_cases hl : (F ++ [c]).length > 100
    · have hF : F.length = 100 := by
        simp only [List.length_append, List.length_singleton] at hl
        omega
      cases F with
      | nil => simp at hF
      | cons h tl =>
        have hh : 1 ≤ h := hpos h (by simp)
        have htl : ∀ x ∈ tl, 1 ≤ x := fun x hx => hpos x (by simp [hx])
        have htl0 := MainCpp.sum_ge_length tl htl
        have hlast : MainCpp.lastN 100 (h :: tl ++ [c]) = tl ++ [c] := by
          unfold MainCpp.lastN
          have : (h :: tl ++ [c]).length - 100 = 1 := by
            simp only [List.length_append, List.length_cons, List.length_singleton,
              List.length_nil] at hF ⊢
            omega
          rw [this]
          rfl
        rw [hlast] at hnew
        simp only [List.sum_append, List.sum_cons, List.sum_nil, add_zero] at hnew hold
        refine ⟨tl ++ [c], hlast, by simp, ?_, by omega, ?_, ?_⟩
        · intro x hx
          simp only [List.mem_append, List.mem_singleton] at hx
          rcases hx with hx | rfl
          · exact htl x hx
          · exact hc
        · rw [if_pos hl]
          rfl
        · rw [if_pos hl]
          simp only [List.cons_append, List.headD_cons, List.sum_cons, List.sum_append,
            List.sum_nil, add_zero]
          rw [toInt32_of_range _ (by omega) (by omega)]
          omega
    · have hlast : MainCpp.lastN 100 (F ++ [c]) = F ++ [c] :=
        MainCpp.lastN_of_le _ _ (by omega)
      rw [hlast] at hnew
      simp only [List.sum_append, List.sum_cons, List.sum_nil, add_zero] at hnew
      refine ⟨F ++ [c], hlast, by simp, ?_, by omega, ?_, ?_⟩
      · intro x hx
        simp only [List.mem_append, List.mem_singleton] at hx
        rcases hx with hx | rfl
        · exact hpos x hx
        · exact hc
      · rw [if_neg hl]
      · rw [if_neg hl]
        simp
  obtain ⟨W, hWeq, hWne, hWpos, hc31, hWtail, hWsum⟩ := hW
  rw [hWeq] at hnew ⊢
  obtain ⟨hq, hq1, hs0⟩ := MainCpp.report_of_window W hWne hWpos hnew
  have hcc : toInt32 c = c := toInt32_of_range _ (by omega) hc31
  have hWlen : W.length ≠ 0 := by
    intro h0
    exact hWne (List.length_eq_zero.mp h0)
  have hWS : toInt32 W.sum = W.sum := by
    have := MainCpp.sum_ge_length W hWpos
    exact toInt32_of_range _ (by omega) hnew
  have hq0 : W.sum / (W.length : Int) ≠ 0 := by omega
  simp only [hcc, hWtail, hWsum, hWS, hq, hWlen, hs0, hq0, if_false]
  exact ⟨trivial, trivial, hq1, trivial, hWpos⟩

theorem MainCpp.trackerRun_bounded (durs : List Int) (t : MainCpp.Tracker)
    (hpos : ∀ x ∈ t.ftimes, 1 ≤ x) (hlen : t.ftimes.length ≤ 100)
    (hsum : t.dur_sum = t.ftimes.sum) (hd : ∀ x ∈ durs, 0 ≤ x)
    (hsmall : ∀ k, k ≤ durs.length →
      (MainCpp.lastN 100 (t.ftimes ++ (durs.take k).map MainCpp.clampDur)).sum < 2 ^ 31) :
    ∃ t2, MainCpp.trackerRun t durs = some t2 ∧
      t2.ftimes = MainCpp.lastN 100 (t.ftimes ++ durs.map MainCpp.clampDur) ∧
      t2.dur_sum = t2.ftimes.sum ∧ (∀ x ∈ t2.ftimes, 1 ≤ x) ∧ t2.ftimes.length ≤ 100 := by
  induction durs generalizing t with
  | nil =>
    refine ⟨t, rfl, ?_, hsum, hpos, hlen⟩
    simp [MainCpp.lastN_of_le _ _ hlen]
  | cons d rest ih =>
    have hold : t.ftimes.sum < 2 ^ 31 := by
      have := hsmall 0 (Nat.zero_le _)
      simpa [MainCpp.lastN_of_le _ _ hlen] using this
    have hnew : (MainCpp.lastN 100 (t.ftimes ++ [MainCpp.clampDur d])).sum < 2 ^ 31 := by
      have := hsmall 1 (by simp)
      simpa using this
    obtain ⟨h1, _, _, h4, h5⟩ := MainCpp.trackerStep_bounded t d hpos hlen hsum hold
      (hd d (by simp)) hnew
    have hlen1 : (MainCpp.trackerStep t d).tracker.ftimes.length ≤ 100 := by
      rw [h1]
      simp only [MainCpp.lastN_length]
      omega
    obtain ⟨t2, hrun, hf, hs, hp, hl⟩ := ih (MainCpp.trackerStep t d).tracker
      (by rw [h1]; exact h5) hlen1 (by rw [h1]) (fun x hx => hd x (by simp [hx]))
      (by
        intro k hk
        have := hsmall (k + 1) (by simp only [List.length_cons]; omega)
        rw [h1]
        simp only [List.take_succ_cons, List.map_cons] at this
        rw [MainCpp.lastN_append]
        simpa using this)
    refine ⟨t2, ?_, ?_, hs, hp, hl⟩
    · unfold MainCpp.trackerRun
      simp only [h4]
      exact hrun
    · rw [hf, h1]
      simp only [MainCpp.lastN_append]
      simp

/-- The bound on the window sums holds in particular when every measured
duration is at most 21474836 ms, the largest value of which 100 sum below
2^31. -/
theorem MainCpp.window_small_of_each_small (durs : List Int)
    (h : ∀ x ∈ durs, 0 ≤ x ∧ x ≤ 21474836) (k : Nat) :
    (MainCpp.lastN 100 ((durs.take k).map MainCpp.clampDur)).sum < 2 ^ 31 := by
  have hle : ∀ y ∈ MainCpp.lastN 100 ((durs.take k).map MainCpp.clampDur), y ≤ 21474836 := by
    intro y hy
    unfold MainCpp.lastN at hy
    have hy2 := List.mem_of_mem_drop hy
    simp only [List.mem_map] at hy2
    obtain ⟨x, hx, rfl⟩ := hy2
    have hx2 := h x (List.mem_of_mem_take hx)
    unfold MainCpp.clampDur
    split_ifs <;> omega
  have hsum := List.sum_le_card_nsmul _ _ hle
  have hlen := MainCpp.lastN_length 100
    ((durs.take k).map MainCpp.clampDur)
  have hlen2 : ((MainCpp.lastN 100 ((durs.take k).map MainCpp.clampDur)).length : Int) ≤ 100 := by
    have : (MainCpp.lastN 100 ((durs.take k).map MainCpp.clampDur)).length ≤ 100 := by
      rw [hlen]
      omega
    exact_mod_cast this
  simp only [nsmul_eq_mul] at hsum
  nlinarith

/-- C13: in the duration tracker of main.cpp, for every sequence of measured
durations that are not negative and small enough that the (at most 100)
recorded durations the window holds at any iteration sum below 2^31, the
report of every iteration computes `avg_dur = dur_sum / ftimes.size()` with a
non-empty `ftimes` and `avg_dur` at least 1, so that neither that division nor
`1000 / avg_dur` has a zero divisor; a measured duration of 0 is recorded as
1. -/
theorem tracker_average_at_least_one (durs pre post : List Int) (dur : Int)
    (hnonneg : ∀ x ∈ durs, 0 ≤ x)
    (hsmall : ∀ k, k ≤ durs.length →
      (MainCpp.lastN 100 ((durs.take k).map MainCpp.clampDur)).sum < 2 ^ 31)
    (hsplit : durs = pre ++ dur :: post) :
    MainCpp.recorded 0 = 1 ∧
    ∃ t, MainCpp.trackerRun MainCpp.Tracker.init pre = some t ∧
      ∃ a fps, (MainCpp.trackerStep t dur).avg_dur = some a ∧
        (MainCpp.trackerStep t dur).tracker.ftimes.length ≠ 0 ∧
        a = (MainCpp.trackerStep t dur).tracker.dur_sum /
          ((MainCpp.trackerStep t dur).tracker.ftimes.length : Int) ∧
        1 ≤ a ∧ (MainCpp.trackerStep t dur).avg_fps = some fps := by
  refine ⟨by decide, ?_⟩
  subst hsplit
  have hpre : ∀ k, k ≤ pre.length → List.take k (pre ++ dur :: post) = List.take k pre := by
    intro k hk
    exact List.take_append_of_le_length hk
  obtain ⟨t, hrun, hf, hs, hp, hl⟩ := MainCpp.trackerRun_bounded pre MainCpp.Tracker.init
    (by simp [MainCpp.Tracker.init]) (by simp [MainCpp.Tracker.init]) rfl
    (fun x hx => hnonneg x (by simp [hx]))
    (by
      intro k hk
      have := hsmall k (by simp only [List.length_append, List.length_cons]; omega)
      rw [hpre k hk] at this
      simpa [MainCpp.Tracker.init] using this)
  simp only [MainCpp.Tracker.init, List.nil_append] at hf
  have hold : t.ftimes.sum < 2 ^ 31 := by
    have := hsmall pre.length (by simp)
    rw [hpre _ (le_refl _), List.take_length] at this
    rw [hf]
    exact this
  have hnew : (MainCpp.lastN 100 (t.ftimes ++ [MainCpp.clampDur dur])).sum < 2 ^ 31 := by
    have := hsmall (pre.length + 1) (by simp)
    have htake : List.take (pre.length + 1) (pre ++ dur :: post) = pre ++ [dur] := by
      rw [List.take_append_eq_append_take]
      simp
    rw [htake, List.map_append, ← MainCpp.lastN_append] at this
    rw [hf]
    simpa using this
  obtain ⟨h1, h2, h3, h4, h5⟩ := MainCpp.trackerStep_bounded t dur hp hl hs hold
    (hnonneg dur (by simp)) hnew
  refine ⟨t, hrun, _, _, h2, ?_, ?_, h3, h4⟩
  · rw [h1]
    intro h0
    have hle := MainCpp.sum_ge_length _ h5
    rw [h0] at h3
    simp at h3
  · rw [h1]

/-- Instance of C13 on the measured durations 0, 5, 3 at the second iteration. -/
theorem tracker_average_at_least_one_witness :
    MainCpp.recorded 0 = 1 ∧
    ∃ t, MainCpp.trackerRun MainCpp.Tracker.init [0] = some t ∧
      ∃ a fps, (MainCpp.trackerStep t 5).avg_dur = some a ∧
        (MainCpp.trackerStep t 5).tracker.ftimes.length ≠ 0 ∧
        a = (MainCpp.trackerStep t 5).tracker.dur_sum /
          ((MainCpp.trackerStep t 5).tracker.ftimes.length : Int) ∧
        1 ≤ a ∧ (MainCpp.trackerStep t 5).avg_fps = some fps :=
  tracker_average_at_least_one [0, 5, 3] [0] [3] 5 (by decide) (by decide) rfl

/-- C14, as amended: in the duration tracker of main.cpp, for every number n
and every sequence of n measured durations whose reports complete, the window
`ftimes` then holds exactly the most recent min(n, 100) recorded durations in
arrival order.  If the measured durations are not negative and the recorded
durations the window holds at any iteration sum below 2^31, the reports do
complete and `dur_sum` equals the sum of the window.  In particular, after 101
durations of 1 the window has exactly 100 entries and `dur_sum` is 100. -/
theorem tracker_window_fifo (durs : List Int) :
    (∀ t, MainCpp.trackerRun MainCpp.Tracker.init durs = some t →
      t.ftimes = MainCpp.lastN 100 (durs.map MainCpp.recorded) ∧
      t.ftimes.length = min durs.length 100) ∧
    ((∀ x ∈ durs, 0 ≤ x) →
      (∀ k, k ≤ durs.length →
        (MainCpp.lastN 100 ((durs.take k).map MainCpp.clampDur)).sum < 2 ^ 31) →
      ∃ t, MainCpp.trackerRun MainCpp.Tracker.init durs = some t ∧
        t.dur_sum = t.ftimes.sum) ∧
    MainCpp.trackerRun MainCpp.Tracker.init (List.replicate 101 1) =
      some ⟨List.replicate 100 1, 100⟩ := by
  refine ⟨?_, ?_, ?_⟩
  · intro t hrun
    have hf := MainCpp.trackerRun_ftimes durs MainCpp.Tracker.init t
      (by simp [MainCpp.Tracker.init]) hrun
    simp only [MainCpp.Tracker.init, List.nil_append] at hf
    refine ⟨hf, ?_⟩
    rw [hf, MainCpp.lastN_length, List.length_map]
  · intro hnonneg hsmall
    obtain ⟨t, hrun, _, hs, _, _⟩ := MainCpp.trackerRun_bounded durs MainCpp.Tracker.init
      (by simp [MainCpp.Tracker.init]) (by simp [MainCpp.Tracker.init]) rfl hnonneg
      (by
        intro k hk
        simpa [MainCpp.Tracker.init] using hsmall k hk)
    exact ⟨t, hrun, hs⟩
  · decide

/-- Instance of the amended C14 on the measured durations 0, 5, 3. -/
theorem tracker_window_fifo_witness :
    (([1, 5, 3] : List Int) = MainCpp.lastN 100 ([0, 5, 3].map MainCpp.recorded) ∧
      ([1, 5, 3] : List Int).length = min ([0, 5, 3] : List Int).length 100) ∧
    (∃ t, MainCpp.trackerRun MainCpp.Tracker.init [0, 5, 3] = some t ∧
      t.dur_sum = t.ftimes.sum) :=
  ⟨(tracker_window_fifo [0, 5, 3]).1 ⟨[1, 5, 3], 9⟩ (by decide),
   (tracker_window_fifo [0, 5, 3]).2.1 (by decide) (by decide)⟩

/-- C14 (counterexample): after two recorded durations of 2^30 milliseconds
the window holds both, their sum is 2^31, and the `int` variable `dur_sum`
holds -2^31. -/
theorem tracker_sum_wraps :
    MainCpp.trackerRun MainCpp.Tracker.init [1073741824, 1073741824] =
      some ⟨[1073741824, 1073741824], -2147483648⟩ ∧
    ([1073741824, 1073741824] : List Int).sum = 2147483648 := by
  decide

end RsCalibration
